import Mathlib

/-!
# Multi_Threaded_Downloader: the download engine of `src/MultiDownloader.cpp`

A shallow embedding of `SingleThreadedDownloader` and `MultithreadedDownloader`
(capability probe, range planning, chunk workers, merge, fallback) and the
properties of the specification that were checked against it.

Conventions of the embedding.

* `int` and `curl_off_t` values are integers (`Int`); every arithmetic operation
  of the range computation is wrapped to its C++ width (`wrap32` for `int`,
  `wrap64` for `curl_off_t`), and `/`, `%` are the truncating `Int.tdiv`,
  `Int.tmod` of C++.
* libcurl is an oracle (`Network`): for each request it yields what
  `curl_easy_init`, `curl_easy_perform` and `curl_easy_getinfo` report and the
  bytes handed to the write callback.
* The disk is a `FileSystem`: the contents of the files that exist, and which
  paths a `std::ofstream` can open.
* Console output (`std::cout`, `std::cerr`) is not modelled.
-/

namespace MultiDownloader

/-! ## Machine integers -/

/-- Two's-complement wrap of an integer to the range of a signed 64-bit
`curl_off_t`. -/
def wrap64 (x : Int) : Int := (x + 2 ^ 63) % 2 ^ 64 - 2 ^ 63

/-- Two's-complement wrap of an integer to the range of a signed 32-bit `int`. -/
def wrap32 (x : Int) : Int := (x + 2 ^ 31) % 2 ^ 32 - 2 ^ 31

/-- Values of type `curl_off_t`. -/
def IsOffT (x : Int) : Prop := -(2 ^ 63) ≤ x ∧ x < 2 ^ 63

/-- Values of type `int`. -/
def IsInt32 (x : Int) : Prop := -(2 ^ 31) ≤ x ∧ x < 2 ^ 31

instance (x : Int) : Decidable (IsOffT x) := by unfold IsOffT; infer_instance

instance (x : Int) : Decidable (IsInt32 x) := by unfold IsInt32; infer_instance

/-! ## Data model -/

/-- One byte of file or response content. -/
abbrev Byte := Fin 256

/-- A sequence of bytes. -/
abbrev Bytes := List Byte

/-- The struct `MultithreadedDownloader::ChunkData` (the back pointer
`downloader` is the enclosing object and is not a field here). -/
structure ChunkData where
  url : String
  filename : String
  start_byte : Int
  end_byte : Int
  chunk_id : Int
deriving DecidableEq, Repr

/-- The number of bytes a chunk is printed as spanning in `Download`:
`end_byte - start_byte + 1`. -/
def ChunkData.length (c : ChunkData) : Int := c.end_byte - c.start_byte + 1

/-- The string given to `CURLOPT_RANGE` by `DownloadChunk`:
`std::to_string(start_byte) + "-" + std::to_string(end_byte)`. -/
def ChunkData.range (c : ChunkData) : String :=
  toString c.start_byte ++ "-" ++ toString c.end_byte

/-! ## Range planning (the loop of `MultithreadedDownloader::Download`) -/

/-- The quotient `chunk_size = file_size / num_threads` (both operands are
`curl_off_t` after the usual conversion). -/
def chunk_size (file_size num_threads : Int) : Int :=
  wrap64 (Int.tdiv file_size num_threads)

/-- The value `remainder = file_size % num_threads`. -/
def remainder (file_size num_threads : Int) : Int :=
  wrap64 (Int.tmod file_size num_threads)

/-- The value `(i + 1) * chunk_size - 1`: `i + 1` is an `int` addition, the
product and the subtraction are `curl_off_t` operations. -/
def endBase (cs i : Int) : Int := wrap64 (wrap64 (wrap32 (i + 1) * cs) - 1)

/-- The body of the planning loop for index `i`: the `ChunkData` that is
handed to the worker thread. -/
def mkChunk (url filename : String) (num_threads cs rem i : Int) : ChunkData :=
  { url := url
    filename := filename
    start_byte := wrap64 (i * cs)
    end_byte := if i = wrap32 (num_threads - 1) then wrap64 (endBase cs i + rem)
                else endBase cs i
    chunk_id := i }

/-- The chunks created by `for (int i = 0; i < num_threads; ++i)`, in the order
in which their threads are started. -/
def plan (url filename : String) (file_size num_threads : Int) : List ChunkData :=
  (List.range num_threads.toNat).map fun (i : Nat) =>
    mkChunk url filename num_threads (chunk_size file_size num_threads)
      (remainder file_size num_threads) (i : Int)

/-! ## The disk -/

/-- The part of the disk the engine touches: `files p` is the content of the
file at path `p` when it exists, and `creatable p` tells whether opening
`std::ofstream(p, std::ios::binary)` succeeds (it fails, for example, when `p`
names a directory or lies in a directory that is not writable). -/
structure FileSystem where
  files : String → Option Bytes
  creatable : String → Bool

/-- The file at `p` now holds `b` (it is created when it did not exist). -/
def FileSystem.write (fs : FileSystem) (p : String) (b : Bytes) : FileSystem :=
  { fs with files := fun q => if q = p then some b else fs.files q }

/-- The effect of `std::remove(p)`. -/
def FileSystem.remove (fs : FileSystem) (p : String) : FileSystem :=
  { fs with files := fun q => if q = p then none else fs.files q }

/-- The name of the part file of chunk `i`:
`filename + ".part" + std::to_string(i)`. -/
def partName (filename : String) (i : Int) : String :=
  filename ++ ".part" ++ toString i

/-! ## libcurl as an oracle -/

/-- What one `curl_easy_perform` on an initialised handle yields. -/
structure Transfer where
  /-- Whether `curl_easy_perform` returned `CURLE_OK`. -/
  res_ok : Bool
  /-- The value of `CURLINFO_RESPONSE_CODE`. -/
  response_code : Int
  /-- The value of `CURLINFO_CONTENT_LENGTH_DOWNLOAD_T` (libcurl reports `-1`
  when the response has no `Content-Length`). -/
  content_length : Int
  /-- The bytes handed to the write callback, in order. -/
  body : Bytes
deriving DecidableEq, Repr

/-- The network as seen through libcurl. Each field gives the transfer of one
kind of request; `none` stands for `curl_easy_init` returning a null handle. -/
structure Network where
  /-- The request of `GetFileSize`: `CURLOPT_NOBODY` on `url`. -/
  head : String → Option Transfer
  /-- The request of `SupportsRangeRequests`: `CURLOPT_NOBODY` on `url` with
  `CURLOPT_RANGE` set to `"0-1023"`. -/
  range_probe : String → Option Transfer
  /-- The request of the worker of chunk `chunk_id`: a GET on `url` with
  `CURLOPT_RANGE` set to `range`. -/
  get_range : Int → String → String → Option Transfer
  /-- The request of `SingleThreadedDownloader::Download`: a GET on `url`. -/
  get : String → Option Transfer

/-! ## `SingleThreadedDownloader` -/

/-- The method `SingleThreadedDownloader::Download`: the returned flag and the
disk afterwards. The write callback appends every block it receives to the
freshly opened (truncated) file, also when the transfer later fails. -/
def SingleThreadedDownloader.Download (net : Network) (url filename : String)
    (fs : FileSystem) : Bool × FileSystem :=
  if !fs.creatable filename then (false, fs)
  else
    let fs1 := fs.write filename []
    match net.get url with
    | none => (false, fs1)
    | some t =>
      let fs2 := fs1.write filename t.body
      if !t.res_ok then (false, fs2)
      else if t.response_code ≥ 400 then (false, fs2)
      else (true, fs2)

/-- The static method `SingleThreadedDownloader::ProgressCallback`: both exits
return `0`. -/
def SingleThreadedDownloader.ProgressCallback (dltotal _dlnow _ultotal _ulnow : Int) : Int :=
  if dltotal = 0 then 0 else 0

/-! ## `MultithreadedDownloader` -/

/-- The data members of `MultithreadedDownloader`. The vector `threads` is kept
as the `joinable()` flag of each `std::thread` it holds; `progress_mutex` has no
state of its own between calls. -/
structure MultithreadedDownloader where
  url : String
  filename : String
  num_threads : Int
  file_size : Int
  threads : List Bool
  total_downloaded : Int
deriving DecidableEq, Repr

/-- The constructor `MultithreadedDownloader(url, filename, threads)`. -/
def MultithreadedDownloader.new (url filename : String) (threads : Int) :
    MultithreadedDownloader :=
  { url := url, filename := filename, num_threads := threads, file_size := 0,
    threads := [], total_downloaded := 0 }

/-- The method `UpdateProgress`: it takes the lock and does nothing else. -/
def MultithreadedDownloader.UpdateProgress (d : MultithreadedDownloader)
    (_bytes_downloaded : Int) : MultithreadedDownloader := d

/-- The static method `MultithreadedDownloader::ProgressCallback`, for a
`clientp` that points to a chunk of downloader `d` (`hasDownloader` is the test
`chunk && chunk->downloader`): the downloader afterwards and the returned
value. -/
def MultithreadedDownloader.ProgressCallback (d : MultithreadedDownloader)
    (hasDownloader : Bool) (_dltotal dlnow _ultotal _ulnow : Int) :
    MultithreadedDownloader × Int :=
  if hasDownloader then (d.UpdateProgress dlnow, 0) else (d, 0)

/-- The method `GetFileSize`. -/
def GetFileSize (net : Network) (url : String) : Int :=
  match net.head url with
  | none => 0
  | some t =>
    if t.res_ok then
      if t.response_code < 200 ∨ t.response_code ≥ 300 then 0 else t.content_length
    else 0

/-- The method `SupportsRangeRequests`. -/
def SupportsRangeRequests (net : Network) (url : String) : Bool :=
  match net.range_probe url with
  | none => false
  | some t => if t.res_ok then decide (t.response_code = 206) else false

/-- The method `DownloadChunk`, the body of one worker thread. It returns
nothing; its only effect is on its part file. -/
def DownloadChunk (net : Network) (c : ChunkData) (fs : FileSystem) : FileSystem :=
  let temp_filename := partName c.filename c.chunk_id
  if !fs.creatable temp_filename then fs
  else
    let fs1 := fs.write temp_filename []
    match net.get_range c.chunk_id c.url c.range with
    | none => fs1
    | some t => fs1.write temp_filename t.body

/-- The state of the merge loop: the disk, the bytes inserted into `final_file`
so far, and whether `final_file` is still `good()`. -/
structure MergeState where
  fs : FileSystem
  out : Bytes
  good : Bool

/-- One iteration of the loop of `MergeChunks`, for index `i`.

The insertion `final_file << temp_file.rdbuf()` follows the C++ standard
library: on a stream that is not `good()` the sentry fails and nothing is
inserted; on a good stream the whole part is inserted, and when no character
was inserted (an empty part) `failbit` is set on `final_file`. The part file is
removed in both cases. A part file that cannot be opened is skipped. -/
def mergeStep (filename : String) (s : MergeState) (i : Nat) : MergeState :=
  let temp_filename := partName filename (i : Int)
  match s.fs.files temp_filename with
  | some b =>
    let fs1 := s.fs.remove temp_filename
    if s.good then
      if b = [] then { fs := fs1, out := s.out, good := false }
      else { fs := fs1, out := s.out ++ b, good := true }
    else { fs := fs1, out := s.out, good := false }
  | none => s

/-- The method `MergeChunks`. When `final_file` cannot be opened it returns at
once. Otherwise the output file is created or truncated, the loop runs over the
chunk ids `0 .. num_threads - 1`, and the bytes inserted into `final_file` are
on disk once `final_file.close()` has run. -/
def MergeChunks (d : MultithreadedDownloader) (fs : FileSystem) : FileSystem :=
  if !fs.creatable d.filename then fs
  else
    let s0 : MergeState := { fs := fs.write d.filename [], out := [], good := true }
    let s := (List.range d.num_threads.toNat).foldl (mergeStep d.filename) s0
    s.fs.write d.filename s.out

/-- What the caller of `Download` observes. -/
inductive Outcome
  /-- The call returned the given flag. -/
  | returned (b : Bool)
  /-- The call evaluated `file_size / num_threads` with `num_threads = 0`,
  which is undefined. -/
  | div_by_zero
  /-- The call left through the `std::system_error` that `std::thread::join`
  throws for a thread that is not joinable. -/
  | system_error
deriving DecidableEq, Repr

/-- The actions of `Download` that are visible from outside the object. -/
inductive Event
  /-- A `SingleThreadedDownloader` was built on `(url, filename)` and run. -/
  | single (url filename : String)
  /-- A worker thread was started on the chunk. -/
  | spawn (c : ChunkData)
  /-- The method `MergeChunks` was called. -/
  | merge
deriving DecidableEq, Repr

/-- The result of one call of `MultithreadedDownloader::Download`. -/
structure DownloadResult where
  outcome : Outcome
  downloader : MultithreadedDownloader
  fs : FileSystem
  log : List Event

/-- The loop `for (auto& thread : threads) thread.join();` on the joinable
flags: the flags afterwards and whether a `join` threw. -/
def joinAll : List Bool → List Bool × Bool
  | [] => ([], false)
  | true :: ts => (false :: (joinAll ts).1, (joinAll ts).2)
  | false :: ts => (false :: ts, true)

/-- The worker bodies of `chunks`, run to completion in the order `sched` (a
list of positions in `chunks`; in a run of the program every position occurs in
it once). The workers run concurrently in the program; each of them touches its
own part file only. -/
def runWorkers (net : Network) (chunks : List ChunkData) (sched : List Nat)
    (fs : FileSystem) : FileSystem :=
  sched.foldl (fun fs k =>
    match chunks.get? k with
    | some c => DownloadChunk net c fs
    | none => fs) fs

/-- The method `MultithreadedDownloader::Download`. When a `join` throws, the
call is left at once and the disk is reported as it was. -/
def MultithreadedDownloader.Download (net : Network) (sched : List Nat)
    (d : MultithreadedDownloader) (fs : FileSystem) : DownloadResult :=
  let file_size := GetFileSize net d.url
  let d1 := { d with file_size := file_size }
  if file_size ≤ 0 then
    let r := SingleThreadedDownloader.Download net d.url d.filename fs
    { outcome := .returned r.1, downloader := d1, fs := r.2,
      log := [.single d.url d.filename] }
  else if !SupportsRangeRequests net d.url then
    let r := SingleThreadedDownloader.Download net d.url d.filename fs
    { outcome := .returned r.1, downloader := d1, fs := r.2,
      log := [.single d.url d.filename] }
  else if d.num_threads = 0 then
    { outcome := .div_by_zero, downloader := d1, fs := fs, log := [] }
  else
    let chunks := plan d.url d.filename file_size d.num_threads
    let started := d.threads ++ chunks.map fun _ => true
    let joined := joinAll started
    if joined.2 then
      { outcome := .system_error, downloader := { d1 with threads := joined.1 },
        fs := fs, log := chunks.map .spawn }
    else
      let d2 := { d1 with threads := joined.1 }
      let fs1 := runWorkers net chunks sched fs
      { outcome := .returned true, downloader := d2, fs := MergeChunks d2 fs1,
        log := chunks.map .spawn ++ [.merge] }

/-- The method `DisplayStats` prints `file_size / num_threads`; this is the
printed value, or `none` when the division is by zero. -/
def MultithreadedDownloader.DisplayStats (d : MultithreadedDownloader) : Option Int :=
  if d.num_threads = 0 then none else some (wrap64 (Int.tdiv d.file_size d.num_threads))

/-- The thread count the console front-end (`main`) passes on for an entered
value: `if (num_threads <= 0) num_threads = 4;`. -/
def consoleThreads (entered : Int) : Int := if entered ≤ 0 then 4 else entered

/-! ## Progress arithmetic, request counting and the console front-end -/

/-- The local `speed` of `SingleThreadedDownloader::ProgressCallback`:
`dlnow / (elapsed.count() + 1)`, a division of 64-bit integers whose quotient
is then converted to `double`. -/
def SingleThreadedDownloader.speed (dlnow elapsed : Int) : Int :=
  wrap64 (Int.tdiv dlnow (wrap64 (elapsed + 1)))

/-- The calls libcurl makes to `MultithreadedDownloader::ProgressCallback`
during the transfers of one run, each with its `(dltotal, dlnow, ultotal,
ulnow)`, applied in order to the downloader; every chunk passes a `clientp`
whose `downloader` is the object itself. -/
def MultithreadedDownloader.progressTicks (d : MultithreadedDownloader)
    (ticks : List (Int × Int × Int × Int)) : MultithreadedDownloader :=
  ticks.foldl (fun d t => (d.ProgressCallback true t.1 t.2.1 t.2.2.1 t.2.2.2).1) d

/-- The method `DownloadChunk` against a server that answers the `k`-th request
made for the chunk with `script k`. The number `issued` counts the requests
made so far and `init_ok` tells whether `curl_easy_init` succeeds. The result
is the disk and the number of requests made afterwards: the body holds one
`curl_easy_perform` and no loop. -/
def DownloadChunkCounted (init_ok : Bool) (script : Nat → Transfer) (issued : Nat)
    (c : ChunkData) (fs : FileSystem) : FileSystem × Nat :=
  let temp_filename := partName c.filename c.chunk_id
  if !fs.creatable temp_filename then (fs, issued)
  else
    let fs1 := fs.write temp_filename []
    if init_ok then (fs1.write temp_filename (script issued).body, issued + 1)
    else (fs1, issued)

/-- The function `main` of the console front-end (`src/main_console.cpp`, and
the same text at the end of `src/MultiDownloader.cpp`) for the values read from
standard input (`entered` is `num_threads` after `std::cin >> num_threads`):
the exit code, or `none` when `Download` does not return. -/
def main (net : Network) (sched : List Nat) (download_url output_filename : String)
    (choice entered : Int) (fs : FileSystem) : Option Int :=
  if choice = 1 then
    if !(SingleThreadedDownloader.Download net download_url output_filename fs).1 then some 1
    else some 0
  else
    let r := (MultithreadedDownloader.new download_url output_filename
      (consoleThreads entered)).Download net sched fs
    match r.outcome with
    | .returned true => r.downloader.DisplayStats.map fun _ => 0
    | .returned false => some 1
    | _ => none

/-- The values computed by the loop body of `Download` for index `i`, in the
order of evaluation: `i + 1` (an `int`), `i * chunk_size`,
`(i + 1) * chunk_size`, `(i + 1) * chunk_size - 1`, and that value plus
`remainder` (all `curl_off_t`). -/
def rangeIntermediates (file_size num_threads i : Int) : List Int :=
  [wrap32 (i + 1),
   wrap64 (i * chunk_size file_size num_threads),
   wrap64 (wrap32 (i + 1) * chunk_size file_size num_threads),
   endBase (chunk_size file_size num_threads) i,
   wrap64 (endBase (chunk_size file_size num_threads) i + remainder file_size num_threads)]

/-! ## Reading the model -/

/-- The content of the part file of chunk `i` of output `filename` (empty when
the file does not exist). -/
def partContent (fs : FileSystem) (filename : String) (i : Nat) : Bytes :=
  (fs.files (partName filename (i : Int))).getD []

/-- The concatenation of the part files `0 .. n-1` in ascending chunk id. -/
def concatParts (fs : FileSystem) (filename : String) (n : Nat) : Bytes :=
  (List.range n).flatMap (partContent fs filename)

/-- The number read back from a string of decimal digits. -/
def decodeDigits (l : List Char) : Nat := l.foldl (fun acc c => acc * 10 + (c.toNat - 48)) 0

/-! ## Concrete scenarios

Small servers and disks on which the model is evaluated. -/

/-- A disk with no file, on which every path can be created. -/
def emptyDisk : FileSystem := { files := fun _ => none, creatable := fun _ => true }

/-- A disk that holds the listed files and on which every path can be created
except the listed `blocked` ones (as when a path names an existing directory). -/
def diskOf (l : List (String × Bytes)) (blocked : List String) : FileSystem :=
  { files := fun q => l.lookup q, creatable := fun q => !blocked.contains q }

/-- A transfer that fails (`curl_easy_perform` does not return `CURLE_OK`)
after delivering `body`. -/
def failure (body : Bytes) : Transfer :=
  { res_ok := false, response_code := 0, content_length := -1, body := body }

/-- A completed transfer with the given status and body. -/
def answer (code : Int) (body : Bytes) : Transfer :=
  { res_ok := true, response_code := code, content_length := body.length, body := body }

/-- A server whose HEAD answers `200` with `Content-Length: len`, whose range
probe answers `probe`, whose answer to the worker of chunk `i` is `chunk i`, and
whose plain GET yields `full`. -/
def server (len probe : Int) (chunk : Int → Option Transfer) (full : Option Transfer) :
    Network :=
  { head := fun _ => some { res_ok := true, response_code := 200, content_length := len,
                            body := [] }
    range_probe := fun _ => some { res_ok := true, response_code := probe,
                                   content_length := len, body := [] }
    get_range := fun i _ _ => chunk i
    get := fun _ => full }

/-- A server script for one chunk: `503` with an error page on the first two
requests, `206` with the chunk `[1, 2]` from the third request on. -/
def retryScript (k : Nat) : Transfer := if k < 2 then answer 503 [9] else answer 206 [1, 2]

/-! ## Machine arithmetic of the range computation is exact -/

theorem wrap64_of_isOffT {x : Int} (h : IsOffT x) : wrap64 x = x := by
  obtain ⟨h1, h2⟩ := h
  unfold wrap64
  rw [Int.emod_eq_of_lt (by omega) (by omega)]
  omega

theorem wrap32_of_isInt32 {x : Int} (h : IsInt32 x) : wrap32 x = x := by
  obtain ⟨h1, h2⟩ := h
  unfold wrap32
  rw [Int.emod_eq_of_lt (by omega) (by omega)]
  omega

theorem wrap64_of_bounds {x : Int} (h1 : -1 ≤ x) (h2 : x < 2 ^ 63) : wrap64 x = x :=
  wrap64_of_isOffT ⟨by omega, h2⟩

theorem chunk_size_eq {L N : Int} (hL : 0 ≤ L) (hL63 : L < 2 ^ 63) (hN : 1 ≤ N) :
    chunk_size L N = L / N := by
  unfold chunk_size
  rw [Int.tdiv_eq_ediv hL (by omega)]
  have h1 : 0 ≤ L / N := Int.ediv_nonneg hL (by omega)
  have h2 : L / N ≤ L := Int.ediv_le_self N hL
  exact wrap64_of_bounds (by omega) (by omega)

theorem remainder_eq {L N : Int} (hL : 0 ≤ L) (hL63 : L < 2 ^ 63) (hN : 1 ≤ N) :
    remainder L N = L % N := by
  unfold remainder
  rw [Int.tmod_eq_emod hL (by omega)]
  have h1 : 0 ≤ L % N := Int.emod_nonneg L (by omega)
  have h2 : L % N ≤ L := by
    have := Int.emod_add_ediv L N
    have h3 : 0 ≤ N * (L / N) := Int.mul_nonneg (by omega) (Int.ediv_nonneg hL (by omega))
    omega
  exact wrap64_of_bounds (by omega) (by omega)

/-- For `0 ≤ k ≤ N` the product `k * (L / N)` lies between `0` and `L`. -/
theorem mul_quot_bounds {L N k : Int} (hL : 0 ≤ L) (hN : 1 ≤ N) (hk0 : 0 ≤ k) (hk : k ≤ N) :
    0 ≤ k * (L / N) ∧ k * (L / N) + L % N ≤ L := by
  have hq : 0 ≤ L / N := Int.ediv_nonneg hL (by omega)
  have hr : 0 ≤ L % N := Int.emod_nonneg L (by omega)
  have hdiv := Int.emod_add_ediv L N
  have h1 : k * (L / N) ≤ N * (L / N) := Int.mul_le_mul_of_nonneg_right hk hq
  exact ⟨Int.mul_nonneg hk0 hq, by omega⟩

/-- With `0 ≤ L < 2^63`, `1 ≤ N < 2^31` and `0 ≤ i < N`, no operation of the
loop body wraps: the chunk is the one of exact integer arithmetic. -/
theorem mkChunk_exact (url filename : String) {L N i : Int} (hL : 0 ≤ L) (hL63 : L < 2 ^ 63)
    (hN : 1 ≤ N) (hN31 : N < 2 ^ 31) (hi0 : 0 ≤ i) (hi : i < N) :
    mkChunk url filename N (chunk_size L N) (remainder L N) i =
      { url := url, filename := filename, start_byte := i * (L / N),
        end_byte := if i = N - 1 then (i + 1) * (L / N) - 1 + L % N else (i + 1) * (L / N) - 1,
        chunk_id := i } := by
  have hr : 0 ≤ L % N := Int.emod_nonneg L (by omega)
  obtain ⟨a1, a2⟩ := mul_quot_bounds (k := i) hL hN hi0 (by omega)
  obtain ⟨b1, b2⟩ := mul_quot_bounds (k := i + 1) hL hN (by omega) (by omega)
  have w1 : wrap32 (N - 1) = N - 1 := wrap32_of_isInt32 ⟨by omega, by omega⟩
  have w2 : wrap32 (i + 1) = i + 1 := wrap32_of_isInt32 ⟨by omega, by omega⟩
  have w3 : wrap64 (i * (L / N)) = i * (L / N) := wrap64_of_bounds (by omega) (by omega)
  have w4 : wrap64 ((i + 1) * (L / N)) = (i + 1) * (L / N) :=
    wrap64_of_bounds (by omega) (by omega)
  have w5 : wrap64 ((i + 1) * (L / N) - 1) = (i + 1) * (L / N) - 1 :=
    wrap64_of_bounds (by omega) (by omega)
  have w6 : wrap64 ((i + 1) * (L / N) - 1 + L % N) = (i + 1) * (L / N) - 1 + L % N :=
    wrap64_of_bounds (by omega) (by omega)
  simp only [mkChunk, endBase, chunk_size_eq hL hL63 hN, remainder_eq hL hL63 hN, w1, w2, w3,
    w4, w5, w6]

/-- Under the bounds of the types the plan is the one of exact integer
arithmetic. -/
theorem plan_eq_exact (url filename : String) {L N : Int} (hL : 0 ≤ L) (hL63 : L < 2 ^ 63)
    (hN : 1 ≤ N) (hN31 : N < 2 ^ 31) :
    plan url filename L N = (List.range N.toNat).map fun i : Nat =>
      ({ url := url, filename := filename, start_byte := (i : Int) * (L / N),
         end_byte := if (i : Int) = N - 1 then ((i : Int) + 1) * (L / N) - 1 + L % N
                     else ((i : Int) + 1) * (L / N) - 1,
         chunk_id := (i : Int) } : ChunkData) := by
  unfold plan
  apply List.map_congr_left
  intro i hi
  rw [List.mem_range] at hi
  exact mkChunk_exact url filename hL hL63 hN hN31 (by omega) (by omega)

theorem plan_length (url filename : String) (L N : Int) :
    (plan url filename L N).length = N.toNat := by
  simp [plan]

theorem plan_getElem? (url filename : String) {L N : Int} (hL : 0 ≤ L) (hL63 : L < 2 ^ 63)
    (hN : 1 ≤ N) (hN31 : N < 2 ^ 31) {i : Nat} (hi : i < N.toNat) :
    (plan url filename L N)[i]? =
      some { url := url, filename := filename, start_byte := (i : Int) * (L / N),
             end_byte := if (i : Int) = N - 1 then ((i : Int) + 1) * (L / N) - 1 + L % N
                         else ((i : Int) + 1) * (L / N) - 1,
             chunk_id := (i : Int) } := by
  rw [plan_eq_exact url filename hL hL63 hN hN31, List.getElem?_map,
    List.getElem?_range hi]
  rfl

/-- The lengths of the first `k` chunks add up to `k * q`, and to `L` once the
last chunk is included. -/
theorem sum_lengths_prefix {L N : Int} (hN : 1 ≤ N) (k : Nat) (hk : k ≤ N.toNat) :
    ((List.range k).map fun i : Nat =>
        (if (i : Int) = N - 1 then ((i : Int) + 1) * (L / N) - 1 + L % N
         else ((i : Int) + 1) * (L / N) - 1) - (i : Int) * (L / N) + 1).sum =
      if k = N.toNat then L else (k : Int) * (L / N) := by
  induction k with
  | zero =>
    have : ¬ (0 = N.toNat) := by omega
    simp [this]
  | succ k ih =>
    have hk1 : k ≤ N.toNat := by omega
    have hk2 : ¬ (k = N.toNat) := by omega
    rw [List.range_succ, List.map_append, List.sum_append, ih hk1, if_neg hk2]
    simp only [List.map_cons, List.map_nil, List.sum_cons, List.sum_nil, add_zero]
    have hdiv := Int.emod_add_ediv L N
    by_cases hlast : k + 1 = N.toNat
    · have hkN : (k : Int) = N - 1 := by omega
      rw [if_pos hkN, if_pos hlast, hkN]
      ring_nf
      ring_nf at hdiv
      omega
    · have hkN : ¬ ((k : Int) = N - 1) := by omega
      rw [if_neg hkN, if_neg hlast]
      push_cast
      ring

/-- Claim C1. For a content length `L` and a thread count `N` with `L ≥ N ≥ 1`
(`L` a `curl_off_t`, `N` an `int`), the chunks planned by `Download` partition
`[0, L)`: there are `N` of them, the first starts at `0`, each next one starts
right after the previous one ends, the last ends at `L - 1`, every chunk is a
non-empty range that ends before every later chunk starts (no overlap), every
byte of `[0, L)` lies in some chunk, and the lengths `end - start + 1` add up to
`L`. -/
theorem plan_partitions (url filename : String) (L N : Int) (hN : 1 ≤ N) (hLN : N ≤ L)
    (hL63 : L < 2 ^ 63) (hN31 : N < 2 ^ 31) :
    (plan url filename L N).length = N.toNat ∧
    ((plan url filename L N)[0]?).map ChunkData.start_byte = some 0 ∧
    (∀ i : Nat, i + 1 < N.toNat → ∃ c c1, (plan url filename L N)[i]? = some c ∧
        (plan url filename L N)[i + 1]? = some c1 ∧ c1.start_byte = c.end_byte + 1) ∧
    ((plan url filename L N)[N.toNat - 1]?).map ChunkData.end_byte = some (L - 1) ∧
    (∀ i j : Nat, i < j → j < N.toNat → ∃ c c1, (plan url filename L N)[i]? = some c ∧
        (plan url filename L N)[j]? = some c1 ∧ c.start_byte ≤ c.end_byte ∧
        c.end_byte < c1.start_byte ∧ c1.start_byte ≤ c1.end_byte) ∧
    (∀ b : Int, 0 ≤ b → b < L → ∃ (i : Nat) (c : ChunkData),
        (plan url filename L N)[i]? = some c ∧ c.start_byte ≤ b ∧ b ≤ c.end_byte) ∧
    ((plan url filename L N).map ChunkData.length).sum = L := by
  have hL : 0 ≤ L := by omega
  have hq : 1 ≤ L / N := by
    have := Int.ediv_le_ediv (by omega : (0 : Int) < N) hLN
    rwa [Int.ediv_self (by omega)] at this
  have hr : 0 ≤ L % N := Int.emod_nonneg L (by omega)
  have hrN : L % N < N := Int.emod_lt_of_pos L (by omega)
  have hdiv := Int.emod_add_ediv L N
  have get := fun (i : Nat) (hi : i < N.toNat) =>
    plan_getElem? url filename hL hL63 hN hN31 hi
  refine ⟨plan_length _ _ _ _, ?_, ?_, ?_, ?_, ?_, ?_⟩
  · rw [get 0 (by omega)]
    simp
  · intro i hi
    refine ⟨_, _, get i (by omega), get (i + 1) hi, ?_⟩
    have : ¬ ((i : Int) = N - 1) := by omega
    simp only [if_neg this]
    push_cast
    ring
  · rw [get (N.toNat - 1) (by omega)]
    have h1 : ((N.toNat - 1 : Nat) : Int) = N - 1 := by omega
    simp only [Option.map_some', h1, if_true, Option.some.injEq]
    have : (N - 1 + 1) * (L / N) = N * (L / N) := by ring
    omega
  · intro i j hij hj
    refine ⟨_, _, get i (by omega), get j hj, ?_, ?_, ?_⟩
    · have h1 : (i : Int) * (L / N) + (L / N) = ((i : Int) + 1) * (L / N) := by ring
      dsimp only
      split <;> omega
    · have hi : ¬ ((i : Int) = N - 1) := by omega
      simp only [if_neg hi]
      have h1 : ((i : Int) + 1) * (L / N) ≤ (j : Int) * (L / N) :=
        Int.mul_le_mul_of_nonneg_right (by omega) (by omega)
      omega
    · have h1 : (j : Int) * (L / N) + (L / N) = ((j : Int) + 1) * (L / N) := by ring
      dsimp only
      split <;> omega
  · intro b hb0 hbL
    by_cases hb : b / (L / N) < N - 1
    · have hk0 : 0 ≤ b / (L / N) := Int.ediv_nonneg hb0 (by omega)
      have hk : (b / (L / N)).toNat < N.toNat := by omega
      refine ⟨(b / (L / N)).toNat, _, get _ hk, ?_, ?_⟩
      · have h1 : ((b / (L / N)).toNat : Int) = b / (L / N) := Int.toNat_of_nonneg hk0
        simp only [h1]
        have := Int.emod_add_ediv b (L / N)
        have := Int.emod_nonneg b (by omega : L / N ≠ 0)
        have h2 : b / (L / N) * (L / N) = L / N * (b / (L / N)) := by ring
        omega
      · have h1 : ((b / (L / N)).toNat : Int) = b / (L / N) := Int.toNat_of_nonneg hk0
        have h3 : ¬ (b / (L / N) = N - 1) := by omega
        simp only [h1, if_neg h3]
        have := Int.emod_add_ediv b (L / N)
        have := Int.emod_lt_of_pos b (by omega : 0 < L / N)
        have h2 : (b / (L / N) + 1) * (L / N) = L / N * (b / (L / N)) + L / N := by ring
        omega
    · refine ⟨N.toNat - 1, _, get _ (by omega), ?_, ?_⟩
      · have h1 : ((N.toNat - 1 : Nat) : Int) = N - 1 := by omega
        simp only [h1]
        have h4 : (N - 1) * (L / N) ≤ b / (L / N) * (L / N) :=
          Int.mul_le_mul_of_nonneg_right (by omega) (by omega)
        have := Int.emod_add_ediv b (L / N)
        have := Int.emod_nonneg b (by omega : L / N ≠ 0)
        have h2 : b / (L / N) * (L / N) = L / N * (b / (L / N)) := by ring
        omega
      · have h1 : ((N.toNat - 1 : Nat) : Int) = N - 1 := by omega
        simp only [h1, if_true]
        have : (N - 1 + 1) * (L / N) = N * (L / N) := by ring
        omega
  · rw [plan_eq_exact url filename hL hL63 hN hN31, List.map_map]
    have := sum_lengths_prefix (L := L) hN N.toNat (le_refl _)
    simpa [Function.comp_def, ChunkData.length] using this

/-- The partition property at `L = 10`, `N = 3`. -/
theorem plan_partitions_witness :
    (plan "u" "f" 10 3).length = (3 : Int).toNat ∧
    ((plan "u" "f" 10 3)[0]?).map ChunkData.start_byte = some 0 ∧
    ((plan "u" "f" 10 3)[(3 : Int).toNat - 1]?).map ChunkData.end_byte = some (10 - 1) ∧
    ((plan "u" "f" 10 3).map ChunkData.length).sum = 10 :=
  have h := plan_partitions "u" "f" 10 3 (by decide) (by decide) (by decide) (by decide)
  ⟨h.1, h.2.1, h.2.2.2.1, h.2.2.2.2.2.2⟩

/-- Claim C2. For `L > 0` and `N ≥ 1`, with `q = L / N` and `r = L mod N`, every
chunk `0 .. N-2` of the plan has exactly `q` bytes and chunk `N-1` has exactly
`q + r` bytes; for `L = 10`, `N = 3` the plan is `0..2, 3..5, 6..9`, of lengths
`3, 3, 4`. -/
theorem plan_lengths (url filename : String) (L N : Int) (hL : 0 < L) (hN : 1 ≤ N)
    (hL63 : L < 2 ^ 63) (hN31 : N < 2 ^ 31) :
    (∀ i : Nat, i + 1 < N.toNat →
        ((plan url filename L N)[i]?).map ChunkData.length = some (L / N)) ∧
    ((plan url filename L N)[N.toNat - 1]?).map ChunkData.length = some (L / N + L % N) ∧
    (plan url filename 10 3).map (fun c => (c.start_byte, c.end_byte, c.length)) =
      [(0, 2, 3), (3, 5, 3), (6, 9, 4)] := by
  have get := fun (i : Nat) (hi : i < N.toNat) =>
    plan_getElem? url filename (by omega : 0 ≤ L) hL63 hN hN31 hi
  refine ⟨?_, ?_, ?_⟩
  · intro i hi
    rw [get i (by omega)]
    have : ¬ ((i : Int) = N - 1) := by omega
    simp only [Option.map_some', ChunkData.length, if_neg this, Option.some.injEq]
    ring
  · rw [get (N.toNat - 1) (by omega)]
    have h1 : ((N.toNat - 1 : Nat) : Int) = N - 1 := by omega
    simp only [Option.map_some', ChunkData.length, h1, if_true, Option.some.injEq]
    ring
  · rw [plan_eq_exact url filename (by decide) (by decide) (by decide) (by decide)]
    rfl

/-- The length property at `L = 10`, `N = 3`: the quotient is `3`, the remainder `1`. -/
theorem plan_lengths_witness :
    ((plan "u" "f" 10 3)[0]?).map ChunkData.length = some 3 ∧
    ((plan "u" "f" 10 3)[1]?).map ChunkData.length = some 3 ∧
    ((plan "u" "f" 10 3)[2]?).map ChunkData.length = some 4 :=
  have h := plan_lengths "u" "f" 10 3 (by decide) (by decide) (by decide) (by decide)
  ⟨h.1 0 (by decide), h.1 1 (by decide), h.2.1⟩

/-! ## The two paths of `Download` -/

theorem partName_ne_self (filename : String) (i : Int) : partName filename i ≠ filename := by
  intro h
  have h1 := congrArg String.length h
  simp only [partName, String.length_append] at h1
  have h2 : ".part".length = 5 := by decide
  omega

theorem write_files_of_ne (fs : FileSystem) (p q : String) (b : Bytes) (h : q ≠ p) :
    (fs.write p b).files q = fs.files q := by
  simp [FileSystem.write, h]

theorem write_files_self (fs : FileSystem) (p : String) (b : Bytes) :
    (fs.write p b).files p = some b := by
  simp [FileSystem.write]

theorem remove_files_of_ne (fs : FileSystem) (p q : String) (h : q ≠ p) :
    (fs.remove p).files q = fs.files q := by
  simp [FileSystem.remove, h]

theorem remove_files_self (fs : FileSystem) (p : String) : (fs.remove p).files p = none := by
  simp [FileSystem.remove]

/-- The single-stream download touches no file but its output file. -/
theorem single_files_of_ne (net : Network) (url filename : String) (fs : FileSystem)
    (q : String) (h : q ≠ filename) :
    (SingleThreadedDownloader.Download net url filename fs).2.files q = fs.files q := by
  unfold SingleThreadedDownloader.Download
  split
  · rfl
  · split
    · exact write_files_of_ne _ _ _ _ h
    · dsimp only
      split_ifs <;> simp [write_files_of_ne, h]

theorem joinAll_fresh (l : List ChunkData) :
    joinAll (l.map fun _ => true) = (l.map fun _ => false, false) := by
  induction l with
  | nil => rfl
  | cons c l ih =>
    rw [List.map_cons, List.map_cons]
    simp only [joinAll]
    rw [ih]

/-- The fallback branch: the length is unknown or the probe found no range
support. -/
theorem Download_fallback (net : Network) (sched : List Nat) (d : MultithreadedDownloader)
    (fs : FileSystem)
    (h : ¬ (0 < GetFileSize net d.url ∧ SupportsRangeRequests net d.url = true)) :
    d.Download net sched fs =
      { outcome := .returned (SingleThreadedDownloader.Download net d.url d.filename fs).1
        downloader := { d with file_size := GetFileSize net d.url }
        fs := (SingleThreadedDownloader.Download net d.url d.filename fs).2
        log := [.single d.url d.filename] } := by
  unfold MultithreadedDownloader.Download
  by_cases h1 : GetFileSize net d.url ≤ 0
  · simp only [h1, if_true]
  · have h2 : SupportsRangeRequests net d.url = false := by
      cases hs : SupportsRangeRequests net d.url
      · rfl
      · exact absurd ⟨by omega, hs⟩ h
    simp only [h1, if_false, h2, Bool.not_false, if_true]

/-- The multi-chunk branch on an object that holds no thread yet. -/
theorem Download_multi (net : Network) (sched : List Nat) (d : MultithreadedDownloader)
    (fs : FileSystem) (hsize : 0 < GetFileSize net d.url)
    (hrange : SupportsRangeRequests net d.url = true) (hN : d.num_threads ≠ 0)
    (hth : d.threads = []) :
    d.Download net sched fs =
      { outcome := .returned true
        downloader := { d with
          file_size := GetFileSize net d.url
          threads := (plan d.url d.filename (GetFileSize net d.url) d.num_threads).map
            fun _ => false }
        fs := MergeChunks
          { d with
            file_size := GetFileSize net d.url
            threads := (plan d.url d.filename (GetFileSize net d.url) d.num_threads).map
              fun _ => false }
          (runWorkers net (plan d.url d.filename (GetFileSize net d.url) d.num_threads)
            sched fs)
        log := (plan d.url d.filename (GetFileSize net d.url) d.num_threads).map .spawn ++
          [.merge] } := by
  unfold MultithreadedDownloader.Download
  have h1 : ¬ (GetFileSize net d.url ≤ 0) := by omega
  simp only [h1, if_false, hrange, Bool.not_true, hN, hth, List.nil_append, joinAll_fresh,
    Bool.false_eq_true]

/-- Claim C3, counterexample. At `L = 2`, `N = 4` nothing is clamped: the plan has
four chunks, the first three with start `0` and end `-1` and the last one
`[0, 1]`, and `Download` starts a worker for each of the four; so it is not the
case that two chunks `[0, 0]`, `[1, 1]` are planned. -/
theorem plan_not_clamped :
    (plan "u" "out" 2 4).map (fun c => (c.start_byte, c.end_byte)) =
      [(0, -1), (0, -1), (0, -1), (0, 1)] ∧
    ((MultithreadedDownloader.new "u" "out" 4).Download
        (server 2 206 (fun _ => none) none) [0, 1, 2, 3] emptyDisk).log =
      (plan "u" "out" 2 4).map .spawn ++ [.merge] ∧
    ¬ ((plan "u" "out" 2 4).length = 2 ∧
       ∀ i : Nat, i < 2 →
         ((plan "u" "out" 2 4)[i]?).map (fun c => (c.start_byte, c.end_byte)) =
           some ((i : Int), (i : Int))) := by
  refine ⟨by decide, by decide, ?_⟩
  intro h
  exact absurd h.1 (by decide)

/-- Claim C3, amended. For `0 < L < N` the chunk count is not clamped: exactly `N`
chunks are planned, and `Download` starts a worker for each of them; every
chunk `i < N-1` has start `0` and end `-1`, so it spans no byte, and chunk
`N-1` has start `0` and end `L - 1`, so it spans all `L` bytes. -/
theorem plan_small_file (L N : Int) (hL : 0 < L) (hLN : L < N) (hN31 : N < 2 ^ 31)
    (net : Network) (sched : List Nat) (d : MultithreadedDownloader) (fs : FileSystem)
    (hd : d.num_threads = N) (hsize : GetFileSize net d.url = L)
    (hrange : SupportsRangeRequests net d.url = true) (hth : d.threads = []) :
    (plan d.url d.filename L N).length = N.toNat ∧
    (d.Download net sched fs).log = (plan d.url d.filename L N).map .spawn ++ [.merge] ∧
    (∀ i : Nat, i + 1 < N.toNat →
        ((plan d.url d.filename L N)[i]?).map
          (fun c => (c.start_byte, c.end_byte, c.length)) = some (0, -1, 0)) ∧
    ((plan d.url d.filename L N)[N.toNat - 1]?).map
        (fun c => (c.start_byte, c.end_byte, c.length)) = some (0, L - 1, L) := by
  have hq : L / N = 0 := Int.ediv_eq_zero_of_lt (by omega) hLN
  have hr : L % N = L := Int.emod_eq_of_lt (by omega) hLN
  have get := fun (i : Nat) (hi : i < N.toNat) =>
    plan_getElem? d.url d.filename (by omega : 0 ≤ L) (by omega) (by omega : 1 ≤ N) hN31 hi
  refine ⟨plan_length _ _ _ _, ?_, ?_, ?_⟩
  · rw [Download_multi net sched d fs (by omega) hrange (by omega) hth, hsize, hd]
  · intro i hi
    rw [get i (by omega)]
    have : ¬ ((i : Int) = N - 1) := by omega
    simp [ChunkData.length, hq, this]
  · rw [get (N.toNat - 1) (by omega)]
    have h1 : ((N.toNat - 1 : Nat) : Int) = N - 1 := by omega
    simp only [Option.map_some', ChunkData.length, hq, hr, h1, if_true, Option.some.injEq,
      Prod.mk.injEq]
    omega

/-- The unclamped plan at `L = 2`, `N = 4`, on a fresh downloader. -/
theorem plan_small_file_witness :
    (plan "u" "out" 2 4).length = 4 ∧
    ((plan "u" "out" 2 4)[0]?).map (fun c => (c.start_byte, c.end_byte, c.length)) =
      some (0, -1, 0) ∧
    ((plan "u" "out" 2 4)[3]?).map (fun c => (c.start_byte, c.end_byte, c.length)) =
      some (0, 1, 2) :=
  have h := plan_small_file 2 4 (by decide) (by decide) (by decide)
    (server 2 206 (fun _ => none) none) [0, 1, 2, 3] (MultithreadedDownloader.new "u" "out" 4)
    emptyDisk
    rfl (by decide) (by decide) rfl
  ⟨h.1, h.2.2.1 0 (by decide), h.2.2.2⟩

/-- Claim C4. `Download` takes the multi-chunk path exactly when `GetFileSize` is
positive and `SupportsRangeRequests` is true: in that case no
`SingleThreadedDownloader` is run and (on a fresh downloader with `N ≥ 1`
threads) the workers of the plan are started and `MergeChunks` is called. In
every other case it starts no worker and adds no thread, runs exactly one
`SingleThreadedDownloader` on the same url and filename, returns that
downloader's result, leaves the disk as that downloader leaves it, and no part
file is created or changed. -/
theorem Download_path (net : Network) (sched : List Nat) (d : MultithreadedDownloader)
    (fs : FileSystem) :
    (Event.single d.url d.filename ∉ (d.Download net sched fs).log ↔
      (0 < GetFileSize net d.url ∧ SupportsRangeRequests net d.url = true)) ∧
    (1 ≤ d.num_threads → d.threads = [] →
      (Event.merge ∈ (d.Download net sched fs).log ↔
        (0 < GetFileSize net d.url ∧ SupportsRangeRequests net d.url = true))) ∧
    ((0 < GetFileSize net d.url ∧ SupportsRangeRequests net d.url = true) →
      1 ≤ d.num_threads → d.threads = [] →
      (d.Download net sched fs).log =
        (plan d.url d.filename (GetFileSize net d.url) d.num_threads).map .spawn ++ [.merge] ∧
      (plan d.url d.filename (GetFileSize net d.url) d.num_threads).length =
        d.num_threads.toNat) ∧
    (¬ (0 < GetFileSize net d.url ∧ SupportsRangeRequests net d.url = true) →
      (d.Download net sched fs).log = [.single d.url d.filename] ∧
      (∀ c, Event.spawn c ∉ (d.Download net sched fs).log) ∧
      (d.Download net sched fs).downloader.threads = d.threads ∧
      (d.Download net sched fs).outcome =
        .returned (SingleThreadedDownloader.Download net d.url d.filename fs).1 ∧
      (d.Download net sched fs).fs =
        (SingleThreadedDownloader.Download net d.url d.filename fs).2 ∧
      ∀ i : Int, (d.Download net sched fs).fs.files (partName d.filename i) =
        fs.files (partName d.filename i)) := by
  refine ⟨?_, ?_, ?_, ?_⟩
  · by_cases h : 0 < GetFileSize net d.url ∧ SupportsRangeRequests net d.url = true
    · simp only [h, and_self, iff_true]
      unfold MultithreadedDownloader.Download
      have h1 : ¬ (GetFileSize net d.url ≤ 0) := by omega
      simp only [h1, if_false, h.2, Bool.not_true, Bool.false_eq_true]
      split_ifs <;> simp
    · rw [Download_fallback net sched d fs h]
      simp [h]
  · intro hN hth
    by_cases h : 0 < GetFileSize net d.url ∧ SupportsRangeRequests net d.url = true
    · rw [Download_multi net sched d fs h.1 h.2 (by omega) hth]
      simp [h]
    · rw [Download_fallback net sched d fs h]
      simp [h]
  · intro h hN hth
    rw [Download_multi net sched d fs h.1 h.2 (by omega) hth]
    exact ⟨rfl, plan_length _ _ _ _⟩
  · intro h
    rw [Download_fallback net sched d fs h]
    refine ⟨rfl, by simp, rfl, rfl, rfl, ?_⟩
    intro i
    exact single_files_of_ne net d.url d.filename fs _ (partName_ne_self _ _)

/-- A server whose range probe answers `200`: the fallback runs, the plain GET
is written to the output file and no part file appears. -/
theorem Download_path_witness :
    ((MultithreadedDownloader.new "u" "out" 2).Download
        (server 4 200 (fun _ => none) (some (answer 200 [1, 2, 3, 4]))) [0, 1]
        emptyDisk).log = [.single "u" "out"] ∧
    ((MultithreadedDownloader.new "u" "out" 2).Download
        (server 4 200 (fun _ => none) (some (answer 200 [1, 2, 3, 4]))) [0, 1]
        emptyDisk).outcome = .returned true ∧
    ((MultithreadedDownloader.new "u" "out" 2).Download
        (server 4 200 (fun _ => none) (some (answer 200 [1, 2, 3, 4]))) [0, 1]
        emptyDisk).fs.files "out" = some [1, 2, 3, 4] ∧
    ((MultithreadedDownloader.new "u" "out" 2).Download
        (server 4 200 (fun _ => none) (some (answer 200 [1, 2, 3, 4]))) [0, 1]
        emptyDisk).fs.files (partName "out" 0) = none :=
  have h := (Download_path (server 4 200 (fun _ => none) (some (answer 200 [1, 2, 3, 4])))
    [0, 1] (MultithreadedDownloader.new "u" "out" 2) emptyDisk).2.2.2 (by decide)
  ⟨h.1, by rw [h.2.2.2.1]; decide, by rw [h.2.2.2.2.1]; decide, (h.2.2.2.2.2 0).trans rfl⟩

theorem supports_true_iff (net : Network) (url : String) :
    SupportsRangeRequests net url = true ↔
      ∃ t, net.range_probe url = some t ∧ t.res_ok = true ∧ t.response_code = 206 := by
  unfold SupportsRangeRequests
  cases h : net.range_probe url with
  | none => simp
  | some t => cases hr : t.res_ok <;> simp [hr]

/-- Claim C5. `SupportsRangeRequests` returns true exactly when the probe transfer
completed and its status is `206`; it returns false for every other status of
a completed transfer (`200` included), for a failed transfer and for a failed
`curl_easy_init`. -/
theorem SupportsRangeRequests_iff (net : Network) (url : String) :
    (SupportsRangeRequests net url = true ↔
      ∃ t, net.range_probe url = some t ∧ t.res_ok = true ∧ t.response_code = 206) ∧
    (∀ t, net.range_probe url = some t → t.response_code ≠ 206 →
      SupportsRangeRequests net url = false) ∧
    (∀ t, net.range_probe url = some t → t.res_ok = false →
      SupportsRangeRequests net url = false) ∧
    (net.range_probe url = none → SupportsRangeRequests net url = false) := by
  unfold SupportsRangeRequests
  cases h : net.range_probe url with
  | none => simp
  | some t => cases hr : t.res_ok <;> simp [hr]

/-- The probe on servers that answer `206`, `200`, `204`, and on a failed
transfer. -/
theorem SupportsRangeRequests_iff_witness :
    SupportsRangeRequests (server 4 206 (fun _ => none) none) "u" = true ∧
    SupportsRangeRequests (server 4 200 (fun _ => none) none) "u" = false ∧
    SupportsRangeRequests (server 4 204 (fun _ => none) none) "u" = false :=
  ⟨(SupportsRangeRequests_iff (server 4 206 (fun _ => none) none) "u").1.2
      ⟨_, rfl, rfl, rfl⟩,
    (SupportsRangeRequests_iff (server 4 200 (fun _ => none) none) "u").2.1 _ rfl
      (by decide),
    (SupportsRangeRequests_iff (server 4 204 (fun _ => none) none) "u").2.1 _ rfl
      (by decide)⟩

/-- Claim C6. The probed length is known (`GetFileSize` is positive) exactly when
the HEAD transfer completed with a status in `200..299` and a positive
`Content-Length`; `GetFileSize` is `0` for every status outside `200..299`,
for a failed transfer and for a failed `curl_easy_init`; and `Download` treats
every value `≤ 0` (the `-1` of an absent `Content-Length` included) as unknown:
it runs the single-stream fallback and returns its result. -/
theorem GetFileSize_known (net : Network) (url : String) :
    (0 < GetFileSize net url ↔
      ∃ t, net.head url = some t ∧ t.res_ok = true ∧ 200 ≤ t.response_code ∧
        t.response_code < 300 ∧ 0 < t.content_length) ∧
    (∀ t, net.head url = some t → (t.response_code < 200 ∨ 300 ≤ t.response_code) →
      GetFileSize net url = 0) ∧
    (∀ t, net.head url = some t → t.res_ok = false → GetFileSize net url = 0) ∧
    (net.head url = none → GetFileSize net url = 0) ∧
    (∀ t, net.head url = some t → t.res_ok = true → 200 ≤ t.response_code →
      t.response_code < 300 → GetFileSize net url = t.content_length) ∧
    (∀ (sched : List Nat) (d : MultithreadedDownloader) (fs : FileSystem),
      d.url = url → GetFileSize net url ≤ 0 →
      (d.Download net sched fs).log = [.single d.url d.filename] ∧
      (d.Download net sched fs).outcome =
        .returned (SingleThreadedDownloader.Download net d.url d.filename fs).1) := by
  refine ⟨?_, ?_, ?_, ?_, ?_, ?_⟩
  · unfold GetFileSize
    cases h : net.head url with
    | none => simp
    | some t =>
      cases hr : t.res_ok
      · simp [hr]
      · by_cases hc : t.response_code < 200 ∨ t.response_code ≥ 300
        · simp only [hr, if_true, hc, lt_self_iff_false, Option.some.injEq, exists_eq_left',
            true_and, false_iff, not_and, not_lt]
          intro h1 h2
          omega
        · simp only [hr, if_true, hc, if_false, Option.some.injEq, exists_eq_left', true_and]
          constructor
          · intro h0
            exact ⟨by omega, by omega, h0⟩
          · intro h0
            exact h0.2.2
  · intro t h hc
    unfold GetFileSize
    rw [h]
    have hc1 : t.response_code < 200 ∨ t.response_code ≥ 300 := by omega
    cases hr : t.res_ok <;> simp [hc1]
  · intro t h hr
    unfold GetFileSize
    rw [h]
    simp [hr]
  · intro h
    unfold GetFileSize
    rw [h]
  · intro t h hr h1 h2
    unfold GetFileSize
    rw [h]
    have hc1 : ¬ (t.response_code < 200 ∨ t.response_code ≥ 300) := by omega
    simp [hr, hc1]
  · intro sched d fs hu hle
    subst hu
    rw [Download_fallback net sched d fs (by omega)]
    exact ⟨rfl, rfl⟩

/-- A HEAD answer `200` without `Content-Length` (libcurl reports `-1`): the
length is unknown and the fallback runs. -/
theorem GetFileSize_known_witness :
    GetFileSize (server (-1) 206 (fun _ => none) (some (answer 200 [7]))) "u" = -1 ∧
    ((MultithreadedDownloader.new "u" "out" 2).Download
        (server (-1) 206 (fun _ => none) (some (answer 200 [7]))) [0, 1] emptyDisk).log =
      [.single "u" "out"] :=
  ⟨(GetFileSize_known (server (-1) 206 (fun _ => none) (some (answer 200 [7])))
      "u").2.2.2.2.1 _ rfl rfl (by decide) (by decide),
    ((GetFileSize_known (server (-1) 206 (fun _ => none) (some (answer 200 [7])))
      "u").2.2.2.2.2 [0, 1] (MultithreadedDownloader.new "u" "out" 2) emptyDisk rfl
      (by decide)).1⟩

/-! ## Part file names are distinct -/

theorem digitChar_val (k : Nat) (hk : k < 10) : (Nat.digitChar k).toNat - 48 = k := by
  interval_cases k <;> rfl

theorem toDigitsCore_append (fuel : Nat) : ∀ (n : Nat) (ds : List Char),
    Nat.toDigitsCore 10 fuel n ds = Nat.toDigitsCore 10 fuel n [] ++ ds := by
  induction fuel with
  | zero => intro n ds; rfl
  | succ fuel ih =>
    intro n ds
    simp only [Nat.toDigitsCore]
    split
    · rfl
    · rw [ih (n / 10) (Nat.digitChar (n % 10) :: ds), ih (n / 10) [Nat.digitChar (n % 10)]]
      simp

theorem decode_toDigitsCore (fuel : Nat) : ∀ n : Nat, n < fuel →
    decodeDigits (Nat.toDigitsCore 10 fuel n []) = n := by
  induction fuel with
  | zero => intro n h; omega
  | succ fuel ih =>
    intro n hn
    simp only [Nat.toDigitsCore]
    split
    · simp only [decodeDigits, List.foldl_cons, List.foldl_nil, Nat.zero_mul, Nat.zero_add]
      rw [digitChar_val _ (Nat.mod_lt _ (by decide))]
      omega
    · rw [toDigitsCore_append, decodeDigits, List.foldl_append]
      simp only [List.foldl_cons, List.foldl_nil]
      have h1 := ih (n / 10) (by omega)
      rw [decodeDigits] at h1
      rw [h1, digitChar_val _ (Nat.mod_lt _ (by decide))]
      omega

/-- The decimal rendering of `std::to_string` is injective on the naturals. -/
theorem repr_injective {i j : Nat} (h : Nat.repr i = Nat.repr j) : i = j := by
  have h1 : Nat.toDigits 10 i = Nat.toDigits 10 j := by
    have h0 := congrArg String.data h
    simpa [Nat.repr, List.asString] using h0
  have h2 := congrArg decodeDigits h1
  unfold Nat.toDigits at h2
  rwa [decode_toDigitsCore _ _ (Nat.lt_succ_self i),
    decode_toDigitsCore _ _ (Nat.lt_succ_self j)] at h2

theorem string_append_left_cancel {a s t : String} (h : a ++ s = a ++ t) : s = t := by
  have h0 := congrArg String.data h
  simp only [String.data_append] at h0
  exact String.ext (List.append_cancel_left h0)

/-- Two chunk ids of the merge loop never share a part file. -/
theorem partName_injective (filename : String) {i j : Nat}
    (h : partName filename (i : Int) = partName filename (j : Int)) : i = j := by
  unfold partName at h
  have h1 : toString ((i : Nat) : Int) = toString ((j : Nat) : Int) :=
    string_append_left_cancel h
  exact repr_injective h1

/-! ## The merge loop -/

theorem mergeStep_none (P : String) (s : MergeState) (i : Nat)
    (h : s.fs.files (partName P (i : Int)) = none) : mergeStep P s i = s := by
  simp only [mergeStep, h]

theorem mergeStep_some (P : String) (s : MergeState) (i : Nat) (b : Bytes)
    (h : s.fs.files (partName P (i : Int)) = some b) :
    mergeStep P s i =
      { fs := s.fs.remove (partName P (i : Int))
        out := if s.good = true ∧ b ≠ [] then s.out ++ b else s.out
        good := decide (s.good = true ∧ b ≠ []) } := by
  simp only [mergeStep, h]
  by_cases hg : s.good = true <;> by_cases hb : b = [] <;> simp [hg, hb]

/-- Whatever the parts hold, after `k` iterations the parts `0 .. k-1` are gone,
every file that is not one of them is untouched, and the set of paths that can
be created is the same. -/
theorem mergeLoop_frame (P : String) (s0 : MergeState) (k : Nat) :
    ((List.range k).foldl (mergeStep P) s0).fs.creatable = s0.fs.creatable ∧
    (∀ q : String, (∀ i : Nat, i < k → q ≠ partName P (i : Int)) →
      ((List.range k).foldl (mergeStep P) s0).fs.files q = s0.fs.files q) ∧
    (∀ i : Nat, i < k →
      ((List.range k).foldl (mergeStep P) s0).fs.files (partName P (i : Int)) = none) := by
  induction k with
  | zero => exact ⟨rfl, fun _ _ => rfl, fun i hi => absurd hi (Nat.not_lt_zero i)⟩
  | succ k ih =>
    obtain ⟨ih1, ih2, ih3⟩ := ih
    rw [List.range_succ, List.foldl_append, List.foldl_cons, List.foldl_nil]
    generalize (List.range k).foldl (mergeStep P) s0 = s at ih1 ih2 ih3
    cases hk : s.fs.files (partName P (k : Int)) with
    | none =>
      rw [mergeStep_none P s k hk]
      refine ⟨ih1, fun q hq => ih2 q fun i hi => hq i (by omega), fun i hi => ?_⟩
      by_cases hik : i = k
      · rw [hik]; exact hk
      · exact ih3 i (by omega)
    | some b =>
      rw [mergeStep_some P s k b hk]
      refine ⟨ih1, fun q hq => ?_, fun i hi => ?_⟩
      · show (s.fs.remove (partName P (k : Int))).files q = s0.fs.files q
        rw [remove_files_of_ne _ _ _ (hq k (by omega))]
        exact ih2 q fun i hi => hq i (by omega)
      · show (s.fs.remove (partName P (k : Int))).files (partName P (i : Int)) = none
        by_cases hik : partName P (i : Int) = partName P (k : Int)
        · rw [hik]; exact remove_files_self _ _
        · rw [remove_files_of_ne _ _ _ hik]
          have hne : i ≠ k := fun h => hik (by rw [h])
          exact ih3 i (by omega)

theorem concatParts_succ (fs : FileSystem) (P : String) (k : Nat) :
    concatParts fs P (k + 1) = concatParts fs P k ++ partContent fs P k := by
  simp [concatParts, List.range_succ]

/-- When the stream is good and the parts `0 .. k-1` all exist and are not
empty, `k` iterations insert exactly their contents, in ascending id. -/
theorem mergeLoop_out (P : String) (s0 : MergeState) (hgood : s0.good = true) (k : Nat)
    (hall : ∀ i : Nat, i < k → ∃ b, s0.fs.files (partName P (i : Int)) = some b ∧ b ≠ []) :
    ((List.range k).foldl (mergeStep P) s0).out = s0.out ++ concatParts s0.fs P k ∧
    ((List.range k).foldl (mergeStep P) s0).good = true := by
  induction k with
  | zero => simp [concatParts, hgood]
  | succ k ih =>
    obtain ⟨ih1, ih2⟩ := ih fun i hi => hall i (by omega)
    obtain ⟨b, hb, hne⟩ := hall k (by omega)
    have hfr := (mergeLoop_frame P s0 k).2.1 (partName P (k : Int)) fun i hi h =>
      absurd (partName_injective P h) (by omega)
    rw [List.range_succ, List.foldl_append, List.foldl_cons, List.foldl_nil]
    generalize (List.range k).foldl (mergeStep P) s0 = s at ih1 ih2 hfr
    rw [mergeStep_some P s k b (hfr.trans hb), concatParts_succ]
    have hc : partContent s0.fs P k = b := by simp [partContent, hb]
    simp [ih1, ih2, hne, hc]

/-- The method `MergeChunks` when the output file can be opened: the parts
`0 .. N-1` are gone afterwards, whatever they held. -/
theorem MergeChunks_removes_parts (d : MultithreadedDownloader) (fs : FileSystem)
    (hP : fs.creatable d.filename = true) (i : Nat) (hi : i < d.num_threads.toNat) :
    (MergeChunks d fs).files (partName d.filename (i : Int)) = none := by
  unfold MergeChunks
  simp only [hP, Bool.not_true, Bool.false_eq_true, if_false]
  rw [write_files_of_ne _ _ _ _ (partName_ne_self _ _)]
  exact (mergeLoop_frame d.filename _ d.num_threads.toNat).2.2 i hi

/-- The method `MergeChunks` when the output file can be opened and every part
exists and is not empty: the output file holds the concatenation of the parts
in ascending id. -/
theorem MergeChunks_concat (d : MultithreadedDownloader) (fs : FileSystem)
    (hP : fs.creatable d.filename = true)
    (hall : ∀ i : Nat, i < d.num_threads.toNat →
      ∃ b, fs.files (partName d.filename (i : Int)) = some b ∧ b ≠ []) :
    (MergeChunks d fs).files d.filename =
      some (concatParts fs d.filename d.num_threads.toNat) := by
  unfold MergeChunks
  simp only [hP, Bool.not_true, Bool.false_eq_true, if_false]
  rw [write_files_self]
  have h0 : ∀ i : Nat, (fs.write d.filename []).files (partName d.filename (i : Int)) =
      fs.files (partName d.filename (i : Int)) := fun i =>
    write_files_of_ne _ _ _ _ (partName_ne_self _ _)
  have hout := (mergeLoop_out d.filename
    { fs := fs.write d.filename [], out := [], good := true } rfl d.num_threads.toNat
    (fun i hi => by rw [h0 i]; exact hall i hi)).1
  rw [hout]
  simp only [List.nil_append, concatParts]
  congr 2
  funext i
  simp only [partContent, h0]

/-! ## The workers -/

theorem FileSystem.ext_of (a b : FileSystem) (h1 : ∀ q, a.files q = b.files q)
    (h2 : ∀ q, a.creatable q = b.creatable q) : a = b := by
  cases a
  cases b
  simp only [FileSystem.mk.injEq]
  exact ⟨funext h1, funext h2⟩

theorem write_write (fs : FileSystem) (p : String) (a b : Bytes) :
    (fs.write p a).write p b = fs.write p b := by
  apply FileSystem.ext_of
  · intro q
    by_cases h : q = p <;> simp [FileSystem.write, h]
  · intro q
    rfl

/-- The bytes a worker receives for its chunk (none when `curl_easy_init`
fails). -/
theorem DownloadChunk_eq (net : Network) (c : ChunkData) (fs : FileSystem) :
    DownloadChunk net c fs =
      if fs.creatable (partName c.filename c.chunk_id) = true then
        fs.write (partName c.filename c.chunk_id)
          (match net.get_range c.chunk_id c.url c.range with
           | none => []
           | some t => t.body)
      else fs := by
  unfold DownloadChunk
  cases hcr : fs.creatable (partName c.filename c.chunk_id)
  · simp [hcr]
  · cases net.get_range c.chunk_id c.url c.range <;> simp [hcr, write_write]

theorem DownloadChunk_creatable (net : Network) (c : ChunkData) (fs : FileSystem) :
    (DownloadChunk net c fs).creatable = fs.creatable := by
  rw [DownloadChunk_eq]
  split <;> rfl

theorem DownloadChunk_files_of_ne (net : Network) (c : ChunkData) (fs : FileSystem)
    (q : String) (h : q ≠ partName c.filename c.chunk_id) :
    (DownloadChunk net c fs).files q = fs.files q := by
  rw [DownloadChunk_eq]
  split
  · exact write_files_of_ne _ _ _ _ h
  · rfl

/-- What a worker leaves in its part file depends on the disk only through
whether the part file can be created and, when it cannot, through what it
held. -/
theorem DownloadChunk_files_self (net : Network) (c : ChunkData) (fs fs0 : FileSystem)
    (hc : fs.creatable = fs0.creatable)
    (hf : fs.files (partName c.filename c.chunk_id) =
        fs0.files (partName c.filename c.chunk_id) ∨
      fs.files (partName c.filename c.chunk_id) =
        (DownloadChunk net c fs0).files (partName c.filename c.chunk_id)) :
    (DownloadChunk net c fs).files (partName c.filename c.chunk_id) =
      (DownloadChunk net c fs0).files (partName c.filename c.chunk_id) := by
  rw [DownloadChunk_eq] at hf ⊢
  rw [DownloadChunk_eq, hc]
  cases hcr : fs0.creatable (partName c.filename c.chunk_id)
  · simp only [hcr, Bool.false_eq_true, if_false] at hf ⊢
    rcases hf with hf | hf <;> exact hf
  · simp only [if_true, write_files_self]

theorem plan_getElem?_id (url filename : String) (L N : Int) (j : Nat) (c : ChunkData)
    (h : (plan url filename L N).get? j = some c) :
    c.filename = filename ∧ c.url = url ∧ c.chunk_id = (j : Int) ∧ j < N.toNat := by
  have hlt : j < N.toNat := by
    have h1 := List.get?_eq_some.1 h
    obtain ⟨h2, _⟩ := h1
    rwa [plan_length] at h2
  unfold plan at h
  rw [List.get?_eq_getElem?, List.getElem?_map] at h
  cases hr : (List.range N.toNat)[j]? with
  | none => rw [hr] at h; exact absurd h (by simp)
  | some i =>
    rw [hr] at h
    have hij : i = j := by
      have h1 := List.getElem?_eq_some.1 hr
      obtain ⟨hlt, heq⟩ := h1
      rw [List.getElem_range] at heq
      exact heq.symm
    simp only [Option.map_some', Option.some.injEq] at h
    rw [← h, hij]
    exact ⟨rfl, rfl, rfl, hlt⟩

theorem runWorkers_cons (net : Network) (chunks : List ChunkData) (j : Nat) (sched : List Nat)
    (fs : FileSystem) :
    runWorkers net chunks (j :: sched) fs =
      runWorkers net chunks sched
        (match chunks.get? j with
         | some c => DownloadChunk net c fs
         | none => fs) := rfl

theorem runWorkers_creatable (net : Network) (chunks : List ChunkData) (sched : List Nat) :
    ∀ fs : FileSystem, (runWorkers net chunks sched fs).creatable = fs.creatable := by
  induction sched with
  | nil => intro fs; rfl
  | cons j sched ih =>
    intro fs
    rw [runWorkers_cons, ih]
    split
    · exact DownloadChunk_creatable _ _ _
    · rfl

/-- The workers of a plan touch no file but part files of the plan. -/
theorem runWorkers_files_of_ne (net : Network) (url P : String) (L N : Int) (q : String)
    (hq : ∀ k : Nat, k < N.toNat → q ≠ partName P (k : Int)) (sched : List Nat) :
    ∀ fs : FileSystem,
      (runWorkers net (plan url P L N) sched fs).files q = fs.files q := by
  induction sched with
  | nil => intro fs; rfl
  | cons j sched ih =>
    intro fs
    rw [runWorkers_cons, ih]
    split
    · rename_i c hc
      obtain ⟨h1, _, h3, h4⟩ := plan_getElem?_id url P L N j c hc
      exact DownloadChunk_files_of_ne net c fs q (by rw [h1, h3]; exact hq j h4)
    · rfl

/-- Once every worker of the schedule has run, the part file of chunk `k` holds
what worker `k` alone leaves on the initial disk `fs0`, wherever `k` stands in
the schedule. -/
theorem runWorkers_files_part (net : Network) (url P : String) (L N : Int) (fs0 : FileSystem)
    (k : Nat) (c : ChunkData) (hk : (plan url P L N).get? k = some c) (sched : List Nat) :
    ∀ fs : FileSystem, fs.creatable = fs0.creatable →
      (fs.files (partName P (k : Int)) = fs0.files (partName P (k : Int)) ∨
        fs.files (partName P (k : Int)) =
          (DownloadChunk net c fs0).files (partName P (k : Int))) →
      (k ∈ sched ∨ fs.files (partName P (k : Int)) =
          (DownloadChunk net c fs0).files (partName P (k : Int))) →
      (runWorkers net (plan url P L N) sched fs).files (partName P (k : Int)) =
        (DownloadChunk net c fs0).files (partName P (k : Int)) := by
  obtain ⟨hc1, _, hc3, _⟩ := plan_getElem?_id url P L N k c hk
  induction sched with
  | nil =>
    intro fs _ _ h
    rcases h with h | h
    · exact absurd h (List.not_mem_nil k)
    · exact h
  | cons j sched ih =>
    intro fs hcr hf hmem
    rw [runWorkers_cons]
    by_cases hjk : j = k
    · subst hjk
      rw [hk]
      have hself : (DownloadChunk net c fs).files (partName P (j : Int)) =
          (DownloadChunk net c fs0).files (partName P (j : Int)) := by
        have := DownloadChunk_files_self net c fs fs0 hcr (by rw [hc1, hc3]; exact hf)
        rwa [hc1, hc3] at this
      exact ih _ ((DownloadChunk_creatable _ _ _).trans hcr) (Or.inr hself) (Or.inr hself)
    · have hstep : ∀ fs1 : FileSystem,
          fs1 = (match (plan url P L N).get? j with
            | some c1 => DownloadChunk net c1 fs
            | none => fs) →
          fs1.creatable = fs0.creatable ∧
          fs1.files (partName P (k : Int)) = fs.files (partName P (k : Int)) := by
        intro fs1 h1
        cases hj : (plan url P L N).get? j with
        | none => rw [hj] at h1; rw [h1]; exact ⟨hcr, rfl⟩
        | some c1 =>
          rw [hj] at h1
          obtain ⟨h2, _, h4, _⟩ := plan_getElem?_id url P L N j c1 hj
          rw [h1]
          refine ⟨(DownloadChunk_creatable _ _ _).trans hcr, ?_⟩
          apply DownloadChunk_files_of_ne
          rw [h2, h4]
          exact fun h => hjk (partName_injective P h).symm
      obtain ⟨s1, s2⟩ := hstep _ rfl
      apply ih _ s1
      · rw [s2]; exact hf
      · rw [s2]
        rcases hmem with hmem | hmem
        · rcases List.mem_cons.1 hmem with h | h
          · exact absurd h.symm hjk
          · exact Or.inl h
        · exact Or.inr hmem

/-- The disk the workers leave does not depend on the order in which they
run. -/
theorem runWorkers_order_irrelevant (net : Network) (url P : String) (L N : Int)
    (fs : FileSystem) (s1 s2 : List Nat) (h1 : ∀ k : Nat, k < N.toNat → k ∈ s1)
    (h2 : ∀ k : Nat, k < N.toNat → k ∈ s2) :
    runWorkers net (plan url P L N) s1 fs = runWorkers net (plan url P L N) s2 fs := by
  apply FileSystem.ext_of
  · intro q
    by_cases hq : ∃ k : Nat, k < N.toNat ∧ q = partName P (k : Int)
    · obtain ⟨k, hk, rfl⟩ := hq
      have hlen : k < (plan url P L N).length := by rwa [plan_length]
      have hget : (plan url P L N).get? k = some ((plan url P L N).get ⟨k, hlen⟩) :=
        List.get?_eq_get hlen
      rw [runWorkers_files_part net url P L N fs k _ hget s1 fs rfl (Or.inl rfl)
          (Or.inl (h1 k hk)),
        runWorkers_files_part net url P L N fs k _ hget s2 fs rfl (Or.inl rfl)
          (Or.inl (h2 k hk))]
    · have hne : ∀ k : Nat, k < N.toNat → q ≠ partName P (k : Int) :=
        fun k hk h => hq ⟨k, hk, h⟩
      rw [runWorkers_files_of_ne net url P L N q hne s1,
        runWorkers_files_of_ne net url P L N q hne s2]
  · intro q
    rw [runWorkers_creatable, runWorkers_creatable]

/-! ## Merge: claims -/

theorem concatParts_length (fs : FileSystem) (P : String) (k : Nat) :
    ((concatParts fs P k).length : Int) =
      ((List.range k).map fun i : Nat => ((partContent fs P i).length : Int)).sum := by
  induction k with
  | zero => simp [concatParts]
  | succ k ih =>
    rw [concatParts_succ, List.length_append, List.range_succ, List.map_append,
      List.sum_append]
    push_cast
    rw [ih]
    simp

/-- Claim C7, counterexample. Two disks on which both part files of `out` exist.
On the first `out` cannot be opened for writing: `MergeChunks` returns at its
guard and `out` does not hold the concatenation `[1, 2]` (it does not exist).
On the second part 0 is empty and part 1 holds one byte, as in the plan of
`L = 1`, `N = 2`: inserting the empty part sets `failbit` on the output stream,
part 1 is not copied, and `out` is left empty, of size `0` and not `1`. -/
theorem MergeChunks_not_always_concat :
    ((diskOf [("out.part0", [1]), ("out.part1", [2])] ["out"]).files (partName "out" 0) =
        some [1] ∧
      (diskOf [("out.part0", [1]), ("out.part1", [2])] ["out"]).files (partName "out" 1) =
        some [2] ∧
      concatParts (diskOf [("out.part0", [1]), ("out.part1", [2])] ["out"]) "out" 2 = [1, 2] ∧
      (MergeChunks (MultithreadedDownloader.new "u" "out" 2)
        (diskOf [("out.part0", [1]), ("out.part1", [2])] ["out"])).files "out" = none) ∧
    ((diskOf [("out.part0", []), ("out.part1", [5])] []).files (partName "out" 0) = some [] ∧
      (diskOf [("out.part0", []), ("out.part1", [5])] []).files (partName "out" 1) =
        some [5] ∧
      (plan "u" "out" 1 2).map ChunkData.length = [0, 1] ∧
      concatParts (diskOf [("out.part0", []), ("out.part1", [5])] []) "out" 2 = [5] ∧
      (MergeChunks (MultithreadedDownloader.new "u" "out" 2)
        (diskOf [("out.part0", []), ("out.part1", [5])] [])).files "out" = some []) := by
  decide

/-- Claim C7, amended. For every output path, thread count and disk on which the
output file can be opened for writing and the part files `0 .. N-1` all exist
and are not empty, `MergeChunks` leaves the output file holding exactly the
concatenation of the parts in ascending chunk id. The result depends on the
disk only, so not on the order in which the workers ran: any two schedules that
run every worker give the same merged disk. And when `L ≥ N ≥ 1` and each part
`i` holds `end_i - start_i + 1` bytes for the plan of `(L, N)`, the output file
has exactly `L` bytes. -/
theorem MergeChunks_concat_in_order (d : MultithreadedDownloader) (fs : FileSystem)
    (hP : fs.creatable d.filename = true) :
    ((∀ i : Nat, i < d.num_threads.toNat →
        ∃ b, fs.files (partName d.filename (i : Int)) = some b ∧ b ≠ []) →
      (MergeChunks d fs).files d.filename =
        some (concatParts fs d.filename d.num_threads.toNat)) ∧
    (∀ (net : Network) (L : Int) (s1 s2 : List Nat),
      (∀ k : Nat, k < d.num_threads.toNat → k ∈ s1) →
      (∀ k : Nat, k < d.num_threads.toNat → k ∈ s2) →
      MergeChunks d (runWorkers net (plan d.url d.filename L d.num_threads) s1 fs) =
        MergeChunks d (runWorkers net (plan d.url d.filename L d.num_threads) s2 fs)) ∧
    (∀ L : Int, 1 ≤ d.num_threads → d.num_threads ≤ L → L < 2 ^ 63 →
      d.num_threads < 2 ^ 31 →
      (∀ i : Nat, i < d.num_threads.toNat →
        ∃ b c, fs.files (partName d.filename (i : Int)) = some b ∧
          (plan d.url d.filename L d.num_threads)[i]? = some c ∧
          (b.length : Int) = c.length) →
      ∃ out, (MergeChunks d fs).files d.filename = some out ∧ (out.length : Int) = L) := by
  refine ⟨MergeChunks_concat d fs hP, ?_, ?_⟩
  · intro net L s1 s2 h1 h2
    rw [runWorkers_order_irrelevant net d.url d.filename L d.num_threads fs s1 s2 h1 h2]
  · intro L hN hLN hL63 hN31 hparts
    have hL : 0 ≤ L := by omega
    have hq : 1 ≤ L / d.num_threads := by
      have := Int.ediv_le_ediv (by omega : (0 : Int) < d.num_threads) hLN
      rwa [Int.ediv_self (by omega)] at this
    have hr : 0 ≤ L % d.num_threads := Int.emod_nonneg L (by omega)
    have hlen : ∀ i : Nat, i < d.num_threads.toNat →
        ((partContent fs d.filename i).length : Int) =
          (if (i : Int) = d.num_threads - 1
            then ((i : Int) + 1) * (L / d.num_threads) - 1 + L % d.num_threads
            else ((i : Int) + 1) * (L / d.num_threads) - 1) -
          (i : Int) * (L / d.num_threads) + 1 := by
      intro i hi
      obtain ⟨b, c, hb, hc, hbc⟩ := hparts i hi
      rw [plan_getElem? d.url d.filename hL hL63 hN hN31 hi] at hc
      simp only [Option.some.injEq] at hc
      rw [partContent, hb, Option.getD_some, hbc, ← hc, ChunkData.length]
    have hne : ∀ i : Nat, i < d.num_threads.toNat →
        ∃ b, fs.files (partName d.filename (i : Int)) = some b ∧ b ≠ [] := by
      intro i hi
      obtain ⟨b, c, hb, _, _⟩ := hparts i hi
      refine ⟨b, hb, ?_⟩
      intro hnil
      have h1 := hlen i hi
      rw [partContent, hb, Option.getD_some, hnil] at h1
      have h2 : ((i : Int) + 1) * (L / d.num_threads) =
          (i : Int) * (L / d.num_threads) + L / d.num_threads := by ring
      simp only [List.length_nil, Nat.cast_zero] at h1
      split at h1 <;> omega
    refine ⟨_, MergeChunks_concat d fs hP hne, ?_⟩
    rw [concatParts_length]
    have hsum := sum_lengths_prefix (L := L) hN d.num_threads.toNat (le_refl _)
    rw [if_pos rfl] at hsum
    rw [← hsum]
    congr 1
    apply List.map_congr_left
    intro i hi
    exact hlen i (List.mem_range.1 hi)

/-- The parts `[1]` and `[2, 3]` of the plan `0..0`, `1..2` of `L = 3`, `N = 2`:
the output file holds their concatenation and has three bytes. -/
theorem MergeChunks_concat_in_order_witness :
    (MergeChunks (MultithreadedDownloader.new "u" "out" 2)
        (diskOf [("out.part0", [1]), ("out.part1", [2, 3])] [])).files "out" =
      some (concatParts (diskOf [("out.part0", [1]), ("out.part1", [2, 3])] []) "out" 2) ∧
    ∃ out, (MergeChunks (MultithreadedDownloader.new "u" "out" 2)
        (diskOf [("out.part0", [1]), ("out.part1", [2, 3])] [])).files "out" = some out ∧
      (out.length : Int) = 3 :=
  have h := MergeChunks_concat_in_order (MultithreadedDownloader.new "u" "out" 2)
    (diskOf [("out.part0", [1]), ("out.part1", [2, 3])] []) (by decide)
  ⟨h.1 (by decide),
    h.2.2 3 (by decide) (by decide) (by decide) (by decide) (by
      intro i hi
      have hi2 : i < 2 := hi
      interval_cases i
      · exact ⟨[1], _, rfl, rfl, by decide⟩
      · exact ⟨[2, 3], _, rfl, rfl, by decide⟩)⟩

/-! ## Part files and chunk outcomes: claims -/

/-- Claim C8, counterexample. Part files that remain after `Download` returns.
First run: length `4`, ranges supported, two workers that both succeed, but
`out` cannot be opened for writing; `MergeChunks` returns at its guard and both
part files stay on disk while `Download` returns true. Second run: the range
probe answers `200`, the fallback runs, and a part file `out.part0` that was on
disk before the call is still there. -/
theorem part_files_can_remain :
    (((MultithreadedDownloader.new "u" "out" 2).Download
        (server 4 206 (fun i => some (answer 206 (if i = 0 then [1, 2] else [3, 4]))) none)
        [0, 1] (diskOf [] ["out"])).outcome = .returned true ∧
      ((MultithreadedDownloader.new "u" "out" 2).Download
        (server 4 206 (fun i => some (answer 206 (if i = 0 then [1, 2] else [3, 4]))) none)
        [0, 1] (diskOf [] ["out"])).fs.files (partName "out" 0) = some [1, 2] ∧
      ((MultithreadedDownloader.new "u" "out" 2).Download
        (server 4 206 (fun i => some (answer 206 (if i = 0 then [1, 2] else [3, 4]))) none)
        [0, 1] (diskOf [] ["out"])).fs.files (partName "out" 1) = some [3, 4]) ∧
    (((MultithreadedDownloader.new "u" "out" 2).Download
        (server 4 200 (fun _ => none) (some (answer 200 [1, 2, 3, 4])))
        [0, 1] (diskOf [("out.part0", [9])] [])).outcome = .returned true ∧
      ((MultithreadedDownloader.new "u" "out" 2).Download
        (server 4 200 (fun _ => none) (some (answer 200 [1, 2, 3, 4])))
        [0, 1] (diskOf [("out.part0", [9])] [])).fs.files (partName "out" 0) = some [9]) := by
  decide

/-- Claim C8, amended. For every run of `Download` on a fresh downloader with
`N ≥ 1` threads: when the run takes the multi-chunk path and the output file
can be opened for writing, none of the part files `0 .. N-1` exists after
`Download` returns, whatever the outcome of the individual chunks and the order
in which they ran; when the run takes the fallback path, every part file is
left as it was (none is created, none is removed). -/
theorem Download_part_files (net : Network) (sched : List Nat) (d : MultithreadedDownloader)
    (fs : FileSystem) (hN : 1 ≤ d.num_threads) (hth : d.threads = []) :
    ((0 < GetFileSize net d.url ∧ SupportsRangeRequests net d.url = true) →
      fs.creatable d.filename = true →
      (d.Download net sched fs).outcome = .returned true ∧
      ∀ i : Nat, i < d.num_threads.toNat →
        (d.Download net sched fs).fs.files (partName d.filename (i : Int)) = none) ∧
    (¬ (0 < GetFileSize net d.url ∧ SupportsRangeRequests net d.url = true) →
      ∀ i : Int, (d.Download net sched fs).fs.files (partName d.filename i) =
        fs.files (partName d.filename i)) := by
  refine ⟨?_, ?_⟩
  · intro h hP
    rw [Download_multi net sched d fs h.1 h.2 (by omega) hth]
    refine ⟨rfl, fun i hi => ?_⟩
    exact MergeChunks_removes_parts _ _ (by rw [runWorkers_creatable]; exact hP) i hi
  · intro h i
    rw [Download_fallback net sched d fs h]
    exact single_files_of_ne net d.url d.filename fs _ (partName_ne_self _ _)

/-- A run of two workers on an empty disk: one worker fails after one byte, the
other succeeds; no part file is left. -/
theorem Download_part_files_witness :
    ((MultithreadedDownloader.new "u" "out" 2).Download
        (server 4 206 (fun i => some (if i = 0 then failure [1] else answer 206 [3, 4])) none)
        [1, 0] emptyDisk).fs.files (partName "out" 0) = none ∧
    ((MultithreadedDownloader.new "u" "out" 2).Download
        (server 4 206 (fun i => some (if i = 0 then failure [1] else answer 206 [3, 4])) none)
        [1, 0] emptyDisk).fs.files (partName "out" 1) = none :=
  have h := ((Download_part_files
    (server 4 206 (fun i => some (if i = 0 then failure [1] else answer 206 [3, 4])) none)
    [1, 0] (MultithreadedDownloader.new "u" "out" 2) emptyDisk (by decide) rfl).1
    (by decide) (by decide)).2
  ⟨h 0 (by decide), h 1 (by decide)⟩

/-- Claim C9, the code at failing inputs. Length `4`, ranges supported, two
threads, empty disk. Whether the transfer of chunk 0 fails, or chunk 0 is
answered `404` with an error page `[9]`, or the part file of chunk 0 cannot be
created, `Download` returns true; in the `404` run the output file holds the
error page followed by chunk 1. The single-stream downloader returns false on
the same failed transfer and on the same `404`. -/
theorem Download_true_after_failed_chunk :
    ((MultithreadedDownloader.new "u" "out" 2).Download
        (server 4 206 (fun i => some (if i = 0 then failure [] else answer 206 [3, 4])) none)
        [0, 1] emptyDisk).outcome = .returned true ∧
    ((MultithreadedDownloader.new "u" "out" 2).Download
        (server 4 206 (fun i => some (if i = 0 then answer 404 [9] else answer 206 [3, 4]))
          none) [0, 1] emptyDisk).outcome = .returned true ∧
    ((MultithreadedDownloader.new "u" "out" 2).Download
        (server 4 206 (fun i => some (if i = 0 then answer 404 [9] else answer 206 [3, 4]))
          none) [0, 1] emptyDisk).fs.files "out" = some [9, 3, 4] ∧
    ((MultithreadedDownloader.new "u" "out" 2).Download
        (server 4 206 (fun i => some (answer 206 (if i = 0 then [1, 2] else [3, 4]))) none)
        [0, 1] (diskOf [] ["out.part0"])).outcome = .returned true ∧
    (SingleThreadedDownloader.Download (server 4 206 (fun _ => none) (some (failure [])))
        "u" "out" emptyDisk).1 = false ∧
    (SingleThreadedDownloader.Download (server 4 206 (fun _ => none) (some (answer 404 [9])))
        "u" "out" emptyDisk).1 = false := by
  decide

/-- Claim C10, counterexample. Length `4`, ranges supported by the probe, two
threads. The origin answers the range request of chunk 0 with status `200` and
the full body `[1, 2, 3, 4]`, and the request of chunk 1 with `206` and
`[3, 4]`. `Download` returns true, and the output file holds the six bytes
`[1, 2, 3, 4, 3, 4]`. -/
theorem Download_accepts_200_for_chunk :
    ((MultithreadedDownloader.new "u" "out" 2).Download
        (server 4 206 (fun i => some (if i = 0 then answer 200 [1, 2, 3, 4]
          else answer 206 [3, 4])) none) [0, 1] emptyDisk).outcome = .returned true ∧
    ((MultithreadedDownloader.new "u" "out" 2).Download
        (server 4 206 (fun i => some (if i = 0 then answer 200 [1, 2, 3, 4]
          else answer 206 [3, 4])) none) [0, 1] emptyDisk).fs.files "out" =
      some [1, 2, 3, 4, 3, 4] := by
  decide

/-- Claim C10, amended. In multi-chunk mode status `206` is required of the range
probe only: `Download` starts a chunk worker only if the probe transfer
completed with status exactly `206`. A
worker does not check the status of its own response: whatever the status
(`200` included) and the result of the transfer, the bytes received are
written to the part file. -/
theorem chunk_status_unchecked (net : Network) (sched : List Nat)
    (d : MultithreadedDownloader) (fs : FileSystem) :
    (∀ c : ChunkData, Event.spawn c ∈ (d.Download net sched fs).log →
      ∃ t, net.range_probe d.url = some t ∧ t.res_ok = true ∧ t.response_code = 206) ∧
    (∀ (c : ChunkData) (fs1 : FileSystem) (t : Transfer),
      net.get_range c.chunk_id c.url c.range = some t →
      fs1.creatable (partName c.filename c.chunk_id) = true →
      (DownloadChunk net c fs1).files (partName c.filename c.chunk_id) = some t.body) := by
  refine ⟨?_, ?_⟩
  · intro c hc
    by_cases h : 0 < GetFileSize net d.url ∧ SupportsRangeRequests net d.url = true
    · exact (supports_true_iff net d.url).1 h.2
    · rw [Download_fallback net sched d fs h] at hc
      simp at hc
  · intro c fs1 t ht hcr
    rw [DownloadChunk_eq, if_pos hcr, ht]
    exact write_files_self _ _ _

/-- A worker whose range request is answered `200` with the full body: the
full body is what its part file holds. -/
theorem chunk_status_unchecked_witness :
    (DownloadChunk
        (server 4 206 (fun i => some (if i = 0 then answer 200 [1, 2, 3, 4]
          else answer 206 [3, 4])) none)
        { url := "u", filename := "out", start_byte := 0, end_byte := 1, chunk_id := 0 }
        emptyDisk).files (partName "out" 0) = some [1, 2, 3, 4] :=
  (chunk_status_unchecked
    (server 4 206 (fun i => some (if i = 0 then answer 200 [1, 2, 3, 4]
      else answer 206 [3, 4])) none) [0, 1] (MultithreadedDownloader.new "u" "out" 2)
    emptyDisk).2
    { url := "u", filename := "out", start_byte := 0, end_byte := 1, chunk_id := 0 }
    emptyDisk _ rfl rfl

/-! ## The single-stream downloader and the output file: claims -/

/-- The disk after the single-stream download. -/
theorem single_snd (net : Network) (url filename : String) (fs : FileSystem) :
    (SingleThreadedDownloader.Download net url filename fs).2 =
      if fs.creatable filename = true then
        fs.write filename
          (match net.get url with
           | none => []
           | some t => t.body)
      else fs := by
  unfold SingleThreadedDownloader.Download
  cases hcr : fs.creatable filename
  · simp
  · cases hg : net.get url with
    | none => simp
    | some t =>
      simp only [Bool.not_true, Bool.false_eq_true, if_false, if_true, write_write]
      split_ifs <;> rfl

/-- The flag returned by the single-stream download. -/
theorem single_fst (net : Network) (url filename : String) (fs : FileSystem) :
    (SingleThreadedDownloader.Download net url filename fs).1 = true ↔
      fs.creatable filename = true ∧
        ∃ t, net.get url = some t ∧ t.res_ok = true ∧ t.response_code < 400 := by
  unfold SingleThreadedDownloader.Download
  cases hcr : fs.creatable filename
  · simp
  · cases hg : net.get url with
    | none => simp
    | some t =>
      simp only [Bool.not_true, Bool.false_eq_true, if_false, true_and, Option.some.injEq,
        exists_eq_left']
      cases hr : t.res_ok
      · simp
      · by_cases hc : t.response_code ≥ 400
        · simp only [Bool.not_true, Bool.false_eq_true, if_false, hc, if_true, true_and,
            false_iff, not_lt]
        · simp only [Bool.not_true, Bool.false_eq_true, if_false, hc, true_and, true_iff]
          omega

/-- Claim C11. `SingleThreadedDownloader::Download` returns true exactly when
the output file could be opened, `curl_easy_init` succeeded, the transfer
returned `CURLE_OK` and the HTTP status is below `400`; it returns false for
every status `≥ 400`, for a failed transfer, for a failed initialisation and
for an output file that cannot be opened. -/
theorem single_Download_true_iff (net : Network) (url filename : String) (fs : FileSystem) :
    ((SingleThreadedDownloader.Download net url filename fs).1 = true ↔
      fs.creatable filename = true ∧
        ∃ t, net.get url = some t ∧ t.res_ok = true ∧ t.response_code < 400) ∧
    (∀ t, net.get url = some t → 400 ≤ t.response_code →
      (SingleThreadedDownloader.Download net url filename fs).1 = false) ∧
    (∀ t, net.get url = some t → t.res_ok = false →
      (SingleThreadedDownloader.Download net url filename fs).1 = false) ∧
    (net.get url = none → (SingleThreadedDownloader.Download net url filename fs).1 = false) ∧
    (fs.creatable filename = false →
      (SingleThreadedDownloader.Download net url filename fs).1 = false) := by
  have key := single_fst net url filename fs
  have hfalse : ∀ {b : Bool}, ¬ (b = true) → b = false := by
    intro b hb
    cases b
    · rfl
    · exact absurd rfl hb
  refine ⟨key, ?_, ?_, ?_, ?_⟩
  · intro t ht hc
    apply hfalse
    intro h
    obtain ⟨_, t1, h1, _, h3⟩ := key.1 h
    rw [ht] at h1
    cases h1
    omega
  · intro t ht hr
    apply hfalse
    intro h
    obtain ⟨_, t1, h1, h2, _⟩ := key.1 h
    rw [ht] at h1
    cases h1
    rw [hr] at h2
    exact absurd h2 (by decide)
  · intro hn
    apply hfalse
    intro h
    obtain ⟨_, t1, h1, _, _⟩ := key.1 h
    rw [hn] at h1
    exact absurd h1 (by simp)
  · intro hcr
    apply hfalse
    intro h
    obtain ⟨h1, _⟩ := key.1 h
    rw [hcr] at h1
    exact absurd h1 (by decide)

/-- The single-stream download on answers `200`, `399`, `400` and `404`. -/
theorem single_Download_true_iff_witness :
    (SingleThreadedDownloader.Download (server 4 200 (fun _ => none) (some (answer 200 [1])))
        "u" "out" emptyDisk).1 = true ∧
    (SingleThreadedDownloader.Download (server 4 200 (fun _ => none) (some (answer 400 [1])))
        "u" "out" emptyDisk).1 = false ∧
    (SingleThreadedDownloader.Download (server 4 200 (fun _ => none) (some (answer 404 [1])))
        "u" "out" emptyDisk).1 = false :=
  ⟨(single_Download_true_iff (server 4 200 (fun _ => none) (some (answer 200 [1])))
      "u" "out" emptyDisk).1.2 ⟨rfl, _, rfl, rfl, by decide⟩,
    (single_Download_true_iff (server 4 200 (fun _ => none) (some (answer 400 [1])))
      "u" "out" emptyDisk).2.1 _ rfl (by decide),
    (single_Download_true_iff (server 4 200 (fun _ => none) (some (answer 404 [1])))
      "u" "out" emptyDisk).2.1 _ rfl (by decide)⟩

theorem MergeChunks_of_not_creatable (d : MultithreadedDownloader) (fs : FileSystem)
    (h : fs.creatable d.filename = false) : MergeChunks d fs = fs := by
  simp [MergeChunks, h]

theorem MergeChunks_files_self (d : MultithreadedDownloader) (fs : FileSystem)
    (h : fs.creatable d.filename = true) :
    ∃ out, (MergeChunks d fs).files d.filename = some out := by
  unfold MergeChunks
  simp only [h, Bool.not_true, Bool.false_eq_true, if_false]
  exact ⟨_, write_files_self _ _ _⟩

/-- The workers leave the output file itself alone. -/
theorem runWorkers_files_output (net : Network) (url P : String) (L N : Int)
    (sched : List Nat) (fs : FileSystem) :
    (runWorkers net (plan url P L N) sched fs).files P = fs.files P :=
  runWorkers_files_of_ne net url P L N P (fun k _ h => partName_ne_self P k h.symm) sched fs

/-- The state of the output file after `Download` on a fresh downloader with
`N ≥ 1` threads: untouched when it cannot be opened for writing, present
otherwise, on both paths. -/
theorem Download_output_file (net : Network) (sched : List Nat) (d : MultithreadedDownloader)
    (fs : FileSystem) (hN : 1 ≤ d.num_threads) (hth : d.threads = []) :
    (fs.creatable d.filename = false →
      (d.Download net sched fs).fs.files d.filename = fs.files d.filename) ∧
    (fs.creatable d.filename = true →
      ∃ out, (d.Download net sched fs).fs.files d.filename = some out) := by
  by_cases h : 0 < GetFileSize net d.url ∧ SupportsRangeRequests net d.url = true
  · rw [Download_multi net sched d fs h.1 h.2 (by omega) hth]
    constructor
    · intro hcr
      show (MergeChunks _ _).files d.filename = fs.files d.filename
      rw [MergeChunks_of_not_creatable _ _ (by rw [runWorkers_creatable]; exact hcr)]
      exact runWorkers_files_output _ _ _ _ _ _ _
    · intro hcr
      exact MergeChunks_files_self _ _ (by rw [runWorkers_creatable]; exact hcr)
  · rw [Download_fallback net sched d fs h]
    constructor
    · intro hcr
      show (SingleThreadedDownloader.Download net d.url d.filename fs).2.files d.filename = _
      rw [single_snd, hcr]
      rfl
    · intro hcr
      show ∃ out, (SingleThreadedDownloader.Download net d.url d.filename fs).2.files
        d.filename = some out
      rw [single_snd, hcr]
      exact ⟨_, write_files_self _ _ _⟩

/-- Claim C12, counterexample. Four failed runs on an empty disk, after each of
which a file exists at `out`. Fallback path (range probe `200`): the GET is
answered `404` with an error page `[9]`, or fails after the byte `[1]`;
`Download` returns false and `out` holds `[9]`, respectively `[1]`. The
single-stream downloader run directly on the `404` answer does the same.
Multi-chunk path: the transfer of chunk 0 fails after the byte `[1]`; `out`
holds `[1, 3, 4]`. -/
theorem output_exists_after_failed_run :
    emptyDisk.files "out" = none ∧
    (((MultithreadedDownloader.new "u" "out" 2).Download
        (server 4 200 (fun _ => none) (some (answer 404 [9]))) [0, 1] emptyDisk).outcome =
        .returned false ∧
      ((MultithreadedDownloader.new "u" "out" 2).Download
        (server 4 200 (fun _ => none) (some (answer 404 [9]))) [0, 1] emptyDisk).fs.files
        "out" = some [9]) ∧
    (((MultithreadedDownloader.new "u" "out" 2).Download
        (server 4 200 (fun _ => none) (some (failure [1]))) [0, 1] emptyDisk).outcome =
        .returned false ∧
      ((MultithreadedDownloader.new "u" "out" 2).Download
        (server 4 200 (fun _ => none) (some (failure [1]))) [0, 1] emptyDisk).fs.files
        "out" = some [1]) ∧
    ((SingleThreadedDownloader.Download (server 4 200 (fun _ => none) (some (answer 404 [9])))
        "u" "out" emptyDisk).1 = false ∧
      (SingleThreadedDownloader.Download (server 4 200 (fun _ => none) (some (answer 404 [9])))
        "u" "out" emptyDisk).2.files "out" = some [9]) ∧
    ((MultithreadedDownloader.new "u" "out" 2).Download
        (server 4 206 (fun i => some (if i = 0 then failure [1] else answer 206 [3, 4])) none)
        [0, 1] emptyDisk).fs.files "out" = some [1, 3, 4] := by
  decide

/-- Claim C12, amended. For every run of `Download` on a fresh downloader with
`N ≥ 1` threads, and for every run of `SingleThreadedDownloader::Download`, on
a disk with no file at the output path, no file exists there afterwards exactly
when the output path could not be opened for writing, whether the run fails or
not. A fallback run whose
output path cannot be opened returns false and leaves no file there. A fallback
run, or a run of `SingleThreadedDownloader::Download`, whose output path can be
opened leaves there exactly the bytes the plain GET delivered (none when curl
cannot be initialised), also when it returns false. -/
theorem output_file_after_run (net : Network) (sched : List Nat)
    (d : MultithreadedDownloader) (fs : FileSystem) (hN : 1 ≤ d.num_threads)
    (hth : d.threads = []) (hnone : fs.files d.filename = none) :
    ((d.Download net sched fs).fs.files d.filename = none ↔
      fs.creatable d.filename = false) ∧
    ((SingleThreadedDownloader.Download net d.url d.filename fs).2.files d.filename = none ↔
      fs.creatable d.filename = false) ∧
    (fs.creatable d.filename = false →
      ¬ (0 < GetFileSize net d.url ∧ SupportsRangeRequests net d.url = true) →
      (d.Download net sched fs).outcome = .returned false ∧
      (d.Download net sched fs).fs.files d.filename = none) ∧
    (fs.creatable d.filename = true →
      ¬ (0 < GetFileSize net d.url ∧ SupportsRangeRequests net d.url = true) →
      (d.Download net sched fs).fs.files d.filename =
        some (match net.get d.url with
              | none => []
              | some t => t.body)) ∧
    (fs.creatable d.filename = true →
      (SingleThreadedDownloader.Download net d.url d.filename fs).2.files d.filename =
        some (match net.get d.url with
              | none => []
              | some t => t.body)) := by
  obtain ⟨h1, h2⟩ := Download_output_file net sched d fs hN hth
  have hsingle : fs.creatable d.filename = true →
      (SingleThreadedDownloader.Download net d.url d.filename fs).2.files d.filename =
        some (match net.get d.url with
              | none => []
              | some t => t.body) := by
    intro hcr
    rw [single_snd, if_pos hcr, write_files_self]
  refine ⟨?_, ?_, ?_, ?_, hsingle⟩
  rotate_left 3
  · intro hcr hfb
    rw [Download_fallback net sched d fs hfb]
    exact hsingle hcr
  · cases hcr : fs.creatable d.filename
    · simp only [iff_true]
      rw [h1 hcr, hnone]
    · obtain ⟨out, hout⟩ := h2 hcr
      simp [hout]
  · rw [single_snd]
    cases hcr : fs.creatable d.filename
    · simp [hnone]
    · simp [write_files_self]
  · intro hcr hfb
    refine ⟨?_, by rw [h1 hcr, hnone]⟩
    rw [Download_fallback net sched d fs hfb]
    show Outcome.returned (SingleThreadedDownloader.Download net d.url d.filename fs).1 = _
    have : (SingleThreadedDownloader.Download net d.url d.filename fs).1 = false := by
      cases hb : (SingleThreadedDownloader.Download net d.url d.filename fs).1
      · rfl
      · have := ((single_fst net d.url d.filename fs).1 hb).1
        rw [hcr] at this
        exact absurd this (by decide)
    rw [this]

/-- A fallback run whose output path cannot be opened, and one whose GET is
answered `404` with the page `[9]`: no file afterwards in the first, the page
in the file in the second. -/
theorem output_file_after_run_witness :
    ((MultithreadedDownloader.new "u" "out" 2).Download
        (server 4 200 (fun _ => none) (some (answer 200 [1]))) [0, 1]
        (diskOf [] ["out"])).fs.files "out" = none ∧
    ((MultithreadedDownloader.new "u" "out" 2).Download
        (server 4 200 (fun _ => none) (some (answer 404 [9]))) [0, 1]
        emptyDisk).fs.files "out" ≠ none ∧
    ((MultithreadedDownloader.new "u" "out" 2).Download
        (server 4 200 (fun _ => none) (some (answer 404 [9]))) [0, 1]
        emptyDisk).fs.files "out" = some [9] :=
  ⟨((output_file_after_run (server 4 200 (fun _ => none) (some (answer 200 [1]))) [0, 1]
      (MultithreadedDownloader.new "u" "out" 2) (diskOf [] ["out"]) (by decide) rfl rfl).1).2
      (by decide),
    fun h => absurd (((output_file_after_run
      (server 4 200 (fun _ => none) (some (answer 404 [9]))) [0, 1]
      (MultithreadedDownloader.new "u" "out" 2) emptyDisk (by decide) rfl rfl).1).1 h)
      (by decide),
    (output_file_after_run
      (server 4 200 (fun _ => none) (some (answer 404 [9]))) [0, 1]
      (MultithreadedDownloader.new "u" "out" 2) emptyDisk (by decide) rfl rfl).2.2.2.1
      rfl (by decide)⟩

/-- Claim C13, the code under merge errors. On the multi-chunk path of a fresh
downloader with `N ≥ 1` threads `Download` returns true whatever `MergeChunks`
could open: when the output file cannot be opened for writing, `MergeChunks`
returns at its guard, the output path is left as it was, and `Download` still
returns true; a part file that is missing at merge time is skipped and
`Download` still returns true. -/
theorem Download_true_after_merge_error (net : Network) (sched : List Nat)
    (d : MultithreadedDownloader) (fs : FileSystem) (hN : 1 ≤ d.num_threads)
    (hth : d.threads = [])
    (h : 0 < GetFileSize net d.url ∧ SupportsRangeRequests net d.url = true) :
    (d.Download net sched fs).outcome = .returned true ∧
    (fs.creatable d.filename = false →
      (d.Download net sched fs).outcome = .returned true ∧
      (d.Download net sched fs).fs.files d.filename = fs.files d.filename) ∧
    (∀ i : Nat, i < d.num_threads.toNat →
      (runWorkers net (plan d.url d.filename (GetFileSize net d.url) d.num_threads) sched
        fs).files (partName d.filename (i : Int)) = none →
      (d.Download net sched fs).outcome = .returned true) := by
  have hout : (d.Download net sched fs).outcome = .returned true := by
    rw [Download_multi net sched d fs h.1 h.2 (by omega) hth]
  exact ⟨hout, fun hcr => ⟨hout, (Download_output_file net sched d fs hN hth).1 hcr⟩,
    fun _ _ _ => hout⟩

/-- Length `4`, ranges supported, two threads whose transfers both succeed.
When `out` cannot be opened, `Download` returns true and no file exists at
`out`; when the part file of chunk 0 could not be created and is missing at
merge time, `Download` returns true and `out` holds chunk 1 only. The
single-stream downloader returns false when it cannot open its output file. -/
theorem Download_true_after_merge_error_witness :
    (((MultithreadedDownloader.new "u" "out" 2).Download
        (server 4 206 (fun i => some (answer 206 (if i = 0 then [1, 2] else [3, 4]))) none)
        [0, 1] (diskOf [] ["out"])).outcome = .returned true ∧
      ((MultithreadedDownloader.new "u" "out" 2).Download
        (server 4 206 (fun i => some (answer 206 (if i = 0 then [1, 2] else [3, 4]))) none)
        [0, 1] (diskOf [] ["out"])).fs.files "out" = none) ∧
    (((MultithreadedDownloader.new "u" "out" 2).Download
        (server 4 206 (fun i => some (answer 206 (if i = 0 then [1, 2] else [3, 4]))) none)
        [0, 1] (diskOf [] ["out.part0"])).outcome = .returned true ∧
      ((MultithreadedDownloader.new "u" "out" 2).Download
        (server 4 206 (fun i => some (answer 206 (if i = 0 then [1, 2] else [3, 4]))) none)
        [0, 1] (diskOf [] ["out.part0"])).fs.files "out" = some [3, 4]) ∧
    (SingleThreadedDownloader.Download
        (server 4 206 (fun _ => none) (some (answer 200 [1, 2, 3, 4])))
        "u" "out" (diskOf [] ["out"])).1 = false :=
  ⟨(Download_true_after_merge_error
      (server 4 206 (fun i => some (answer 206 (if i = 0 then [1, 2] else [3, 4]))) none)
      [0, 1] (MultithreadedDownloader.new "u" "out" 2) (diskOf [] ["out"]) (by decide) rfl
      (by decide)).2.1 (by decide),
    ⟨(Download_true_after_merge_error
      (server 4 206 (fun i => some (answer 206 (if i = 0 then [1, 2] else [3, 4]))) none)
      [0, 1] (MultithreadedDownloader.new "u" "out" 2) (diskOf [] ["out.part0"]) (by decide)
      rfl (by decide)).2.2 0 (by decide) (by decide), by decide⟩,
    by decide⟩

/-! ## Progress counter, part names, empty resources: claims -/

theorem progressTicks_eq (d : MultithreadedDownloader) (ticks : List (Int × Int × Int × Int)) :
    d.progressTicks ticks = d := by
  unfold MultithreadedDownloader.progressTicks
  induction ticks with
  | nil => rfl
  | cons t ticks ih =>
    rw [List.foldl_cons]
    exact ih

/-- The method `Download` writes `file_size` and `threads` and no other
member. -/
theorem Download_members (net : Network) (sched : List Nat) (d : MultithreadedDownloader)
    (fs : FileSystem) :
    (d.Download net sched fs).downloader.total_downloaded = d.total_downloaded ∧
    (d.Download net sched fs).downloader.file_size = GetFileSize net d.url ∧
    (d.Download net sched fs).downloader.url = d.url ∧
    (d.Download net sched fs).downloader.filename = d.filename ∧
    (d.Download net sched fs).downloader.num_threads = d.num_threads := by
  unfold MultithreadedDownloader.Download
  dsimp only
  split_ifs <;> exact ⟨rfl, rfl, rfl, rfl, rfl⟩

theorem plan_chunk_ids (url filename : String) (L N : Int) :
    (plan url filename L N).map ChunkData.chunk_id =
      (List.range N.toNat).map fun i : Nat => (i : Int) := by
  simp [plan, mkChunk, Function.comp_def]

/-- Claim C15. For every output path `P` and every two distinct chunk ids
`i ≠ j` with `0 ≤ i, j`, the part-file names `P + ".part" + decimal(i)` and
`P + ".part" + decimal(j)` are different strings. `Download` hands its workers
the ids `0 .. N-1` in order, each with the output path as `filename`, so two
different workers of a plan have different part files, and a worker leaves the
part file of every other worker as it was. -/
theorem part_files_distinct (P : String) (i j : Int) (hi : 0 ≤ i) (hj : 0 ≤ j)
    (hij : i ≠ j) :
    partName P i ≠ partName P j ∧
    (∀ (url : String) (L N : Int),
      (plan url P L N).map ChunkData.chunk_id =
        (List.range N.toNat).map fun k : Nat => (k : Int)) ∧
    (∀ (url : String) (L N : Int) (a b : Nat) (ca cb : ChunkData), a ≠ b →
      (plan url P L N)[a]? = some ca → (plan url P L N)[b]? = some cb →
      partName ca.filename ca.chunk_id ≠ partName cb.filename cb.chunk_id ∧
      ∀ (net : Network) (fs : FileSystem),
        (DownloadChunk net ca fs).files (partName cb.filename cb.chunk_id) =
          fs.files (partName cb.filename cb.chunk_id)) := by
  refine ⟨?_, fun url L N => plan_chunk_ids url P L N, ?_⟩
  · intro h
    have h1 : i = ((i.toNat : Nat) : Int) := (Int.toNat_of_nonneg hi).symm
    have h2 : j = ((j.toNat : Nat) : Int) := (Int.toNat_of_nonneg hj).symm
    rw [h1, h2] at h
    have := partName_injective P h
    omega
  · intro url L N a b ca cb hab ha hb
    rw [← List.get?_eq_getElem?] at ha hb
    obtain ⟨a1, _, a3, _⟩ := plan_getElem?_id url P L N a ca ha
    obtain ⟨b1, _, b3, _⟩ := plan_getElem?_id url P L N b cb hb
    have hne : partName ca.filename ca.chunk_id ≠ partName cb.filename cb.chunk_id := by
      rw [a1, a3, b1, b3]
      exact fun h => hab (partName_injective P h)
    exact ⟨hne, fun net fs => DownloadChunk_files_of_ne net ca fs _ hne.symm⟩

/-- The part files of chunks `9` and `10` of output `out`. -/
theorem part_files_distinct_witness : partName "out" 9 ≠ partName "out" 10 :=
  (part_files_distinct "out" 9 10 (by decide) (by decide) (by decide)).1

/-- Claim C16, counterexample. Two runs whose HEAD answers `200` with
`Content-Length: 0`. In the first the plain GET of the fallback delivers
`[1, 2, 3]`: the final file holds these three bytes. In the second the output
path cannot be opened: no final file exists and `Download` returns false. -/
theorem zero_length_not_always_empty_file :
    (GetFileSize (server 0 206 (fun _ => none) (some (answer 200 [1, 2, 3]))) "u" = 0 ∧
      ((MultithreadedDownloader.new "u" "out" 2).Download
        (server 0 206 (fun _ => none) (some (answer 200 [1, 2, 3]))) [0, 1]
        emptyDisk).fs.files "out" = some [1, 2, 3]) ∧
    (((MultithreadedDownloader.new "u" "out" 2).Download
        (server 0 206 (fun _ => none) (some (answer 200 []))) [0, 1]
        (diskOf [] ["out"])).fs.files "out" = none ∧
      ((MultithreadedDownloader.new "u" "out" 2).Download
        (server 0 206 (fun _ => none) (some (answer 200 []))) [0, 1]
        (diskOf [] ["out"])).outcome = .returned false) := by
  decide

/-- Claim C16, amended. When the probed content length is `0`, `Download`
starts no chunk worker and runs the single-stream fallback on the same url and
filename; when the output path can be opened, the final file holds exactly the
bytes the plain GET delivers, so it is an empty file when the GET delivers no
byte (as for an empty resource) or `curl_easy_init` fails. -/
theorem zero_length_runs_fallback (net : Network) (sched : List Nat)
    (d : MultithreadedDownloader) (fs : FileSystem) (hzero : GetFileSize net d.url = 0) :
    (d.Download net sched fs).log = [.single d.url d.filename] ∧
    (∀ c, Event.spawn c ∉ (d.Download net sched fs).log) ∧
    (fs.creatable d.filename = true →
      (d.Download net sched fs).fs.files d.filename =
        some (match net.get d.url with
              | none => []
              | some t => t.body)) ∧
    (fs.creatable d.filename = true → (∀ t, net.get d.url = some t → t.body = []) →
      (d.Download net sched fs).fs.files d.filename = some []) := by
  have hfb : ¬ (0 < GetFileSize net d.url ∧ SupportsRangeRequests net d.url = true) := by
    rw [hzero]
    exact fun h => absurd h.1 (by decide)
  have hfiles : fs.creatable d.filename = true →
      (d.Download net sched fs).fs.files d.filename =
        some (match net.get d.url with
              | none => []
              | some t => t.body) := by
    intro hcr
    rw [Download_fallback net sched d fs hfb]
    show (SingleThreadedDownloader.Download net d.url d.filename fs).2.files d.filename = _
    rw [single_snd, if_pos hcr, write_files_self]
  refine ⟨?_, ?_, hfiles, ?_⟩
  · rw [Download_fallback net sched d fs hfb]
  · rw [Download_fallback net sched d fs hfb]
    simp
  · intro hcr hempty
    rw [hfiles hcr]
    cases hg : net.get d.url with
    | none => rfl
    | some t => simp [hempty t hg]

/-- An empty resource: HEAD answers `Content-Length: 0`, the GET delivers no
byte, and the final file is empty. -/
theorem zero_length_runs_fallback_witness :
    ((MultithreadedDownloader.new "u" "out" 2).Download
        (server 0 206 (fun _ => none) (some (answer 200 []))) [0, 1] emptyDisk).log =
      [.single "u" "out"] ∧
    ((MultithreadedDownloader.new "u" "out" 2).Download
        (server 0 206 (fun _ => none) (some (answer 200 []))) [0, 1] emptyDisk).fs.files
      "out" = some [] :=
  have h := zero_length_runs_fallback (server 0 206 (fun _ => none) (some (answer 200 [])))
    [0, 1] (MultithreadedDownloader.new "u" "out" 2) emptyDisk (by decide)
  ⟨h.1, h.2.2.2 rfl (fun t ht => by cases ht; rfl)⟩

/-! ## Console front-end, speed, retries, re-runs: claims -/

/-- On a fresh downloader with `N ≥ 1` threads `Download` returns. -/
theorem Download_returns (net : Network) (sched : List Nat) (d : MultithreadedDownloader)
    (fs : FileSystem) (hN : 1 ≤ d.num_threads) (hth : d.threads = []) :
    ∃ b, (d.Download net sched fs).outcome = .returned b := by
  by_cases h : 0 < GetFileSize net d.url ∧ SupportsRangeRequests net d.url = true
  · rw [Download_multi net sched d fs h.1 h.2 (by omega) hth]
    exact ⟨true, rfl⟩
  · rw [Download_fallback net sched d fs h]
    exact ⟨_, rfl⟩

theorem consoleThreads_pos (entered : Int) : 1 ≤ consoleThreads entered := by
  unfold consoleThreads
  split <;> omega

/-- Claim C17. The console `main` returns exit code `0` exactly when the
`Download` of the selected downloader returned true and exit code `1` exactly
when it returned false, for the single-threaded choice (`1`) and for the
multithreaded choice (any other value), in which `Download` always returns. -/
theorem main_exit_code (net : Network) (sched : List Nat) (download_url output_filename : String)
    (choice entered : Int) (fs : FileSystem) :
    (choice = 1 →
      (main net sched download_url output_filename choice entered fs = some 0 ↔
        (SingleThreadedDownloader.Download net download_url output_filename fs).1 = true) ∧
      (main net sched download_url output_filename choice entered fs = some 1 ↔
        (SingleThreadedDownloader.Download net download_url output_filename fs).1 = false)) ∧
    (choice ≠ 1 →
      (main net sched download_url output_filename choice entered fs = some 0 ↔
        ((MultithreadedDownloader.new download_url output_filename
          (consoleThreads entered)).Download net sched fs).outcome = .returned true) ∧
      (main net sched download_url output_filename choice entered fs = some 1 ↔
        ((MultithreadedDownloader.new download_url output_filename
          (consoleThreads entered)).Download net sched fs).outcome = .returned false) ∧
      ∃ b, ((MultithreadedDownloader.new download_url output_filename
        (consoleThreads entered)).Download net sched fs).outcome = .returned b) := by
  refine ⟨?_, ?_⟩
  · intro hc
    unfold main
    rw [if_pos hc]
    cases (SingleThreadedDownloader.Download net download_url output_filename fs).1 <;> simp
  · intro hc
    have hpos := consoleThreads_pos entered
    obtain ⟨b, hb⟩ := Download_returns net sched
      (MultithreadedDownloader.new download_url output_filename (consoleThreads entered)) fs
      hpos rfl
    have hnum := (Download_members net sched
      (MultithreadedDownloader.new download_url output_filename (consoleThreads entered))
      fs).2.2.2.2
    have hstats : ((MultithreadedDownloader.new download_url output_filename
        (consoleThreads entered)).Download net sched fs).downloader.DisplayStats.map
          (fun _ => (0 : Int)) = some 0 := by
      unfold MultithreadedDownloader.DisplayStats
      rw [hnum]
      have : (MultithreadedDownloader.new download_url output_filename
          (consoleThreads entered)).num_threads ≠ 0 := by
        show consoleThreads entered ≠ 0
        omega
      rw [if_neg this]
      rfl
    unfold main
    rw [if_neg hc]
    dsimp only
    rw [hb]
    cases b
    · simp
    · simp [hstats]

/-- The exit codes for a GET answered `404`, with the single-threaded choice
and with the multithreaded choice on a server without range support. -/
theorem main_exit_code_witness :
    main (server 4 200 (fun _ => none) (some (answer 404 [9]))) [0, 1] "u" "out" 1 0
      emptyDisk = some 1 ∧
    main (server 4 200 (fun _ => none) (some (answer 404 [9]))) [0, 1] "u" "out" 2 0
      emptyDisk = some 1 :=
  ⟨((main_exit_code (server 4 200 (fun _ => none) (some (answer 404 [9]))) [0, 1] "u" "out"
      1 0 emptyDisk).1 rfl).2.2 (by decide),
    ((main_exit_code (server 4 200 (fun _ => none) (some (answer 404 [9]))) [0, 1] "u" "out"
      2 0 emptyDisk).2 (by decide)).2.1.2 (by decide)⟩

/-- Claim C18, counterexample. For `10` bytes after `1` elapsed second the
speed computed is `5`, while `10 / max(1, 1)` is `10`, in integer and in
rational arithmetic alike. -/
theorem speed_is_not_quotient_by_max :
    SingleThreadedDownloader.speed 10 1 = 5 ∧
    (10 : Int) / max 1 1 = 10 ∧
    SingleThreadedDownloader.speed 10 1 ≠ 10 / max 1 1 ∧
    ((SingleThreadedDownloader.speed 10 1 : Int) : ℚ) ≠ (10 : ℚ) / max 1 1 := by
  have h : SingleThreadedDownloader.speed 10 1 = 5 := by decide
  refine ⟨h, by decide, by decide, ?_⟩
  rw [h]
  norm_num

/-- Claim C18, amended. For every byte count `d ≥ 0` and every whole number of
elapsed seconds `e ≥ 0` (both 64-bit values) the speed derived for a progress
report is the integer quotient `d / (e + 1)`: the elapsed time is increased by
one second, to avoid a division by zero. It equals `d / max(e, 1)` when
`e = 0`. -/
theorem speed_eq (d e : Int) (hd : 0 ≤ d) (hd63 : d < 2 ^ 63) (he : 0 ≤ e)
    (he63 : e + 1 < 2 ^ 63) :
    SingleThreadedDownloader.speed d e = d / (e + 1) ∧
    (e = 0 → SingleThreadedDownloader.speed d e = d / max e 1) := by
  have h1 : wrap64 (e + 1) = e + 1 := wrap64_of_bounds (by omega) he63
  have h2 : 0 ≤ d / (e + 1) := Int.ediv_nonneg hd (by omega)
  have h3 : d / (e + 1) ≤ d := Int.ediv_le_self _ hd
  have key : SingleThreadedDownloader.speed d e = d / (e + 1) := by
    unfold SingleThreadedDownloader.speed
    rw [h1, Int.tdiv_eq_ediv hd (by omega)]
    exact wrap64_of_bounds (by omega) (by omega)
  refine ⟨key, ?_⟩
  intro h0
  rw [key, h0]
  rfl

/-- The speed for `10` bytes after `0`, `1` and `4` elapsed seconds. -/
theorem speed_eq_witness :
    SingleThreadedDownloader.speed 10 0 = 10 / (0 + 1) ∧
    SingleThreadedDownloader.speed 10 1 = 10 / (1 + 1) ∧
    SingleThreadedDownloader.speed 10 4 = 10 / (4 + 1) :=
  ⟨(speed_eq 10 0 (by decide) (by decide) (by decide) (by decide)).1,
    (speed_eq 10 1 (by decide) (by decide) (by decide) (by decide)).1,
    (speed_eq 10 4 (by decide) (by decide) (by decide) (by decide)).1⟩

/-- Claim C19, counterexample. The origin answers the first two requests for a
chunk with `503` and an error page `[9]`, and the third with `206` and the
chunk `[1, 2]`. The worker makes one request, not three, and its part file
holds the error page; the good response of the third attempt is never asked
for. -/
theorem chunk_not_retried :
    retryScript 0 = answer 503 [9] ∧ retryScript 1 = answer 503 [9] ∧
    retryScript 2 = answer 206 [1, 2] ∧
    (DownloadChunkCounted true retryScript 0
      { url := "u", filename := "out", start_byte := 0, end_byte := 1, chunk_id := 0 }
      emptyDisk).2 = 1 ∧
    (DownloadChunkCounted true retryScript 0
      { url := "u", filename := "out", start_byte := 0, end_byte := 1, chunk_id := 0 }
      emptyDisk).1.files (partName "out" 0) = some [9] := by
  decide

theorem DownloadChunkCounted_eq (init_ok : Bool) (script : Nat → Transfer) (issued : Nat)
    (c : ChunkData) (fs : FileSystem) :
    DownloadChunkCounted init_ok script issued c fs =
      if fs.creatable (partName c.filename c.chunk_id) = true then
        if init_ok = true then
          (fs.write (partName c.filename c.chunk_id) (script issued).body, issued + 1)
        else (fs.write (partName c.filename c.chunk_id) [], issued)
      else (fs, issued) := by
  unfold DownloadChunkCounted
  cases hcr : fs.creatable (partName c.filename c.chunk_id) <;> cases init_ok <;>
    simp [hcr, write_write]

/-- Claim C19, amended. Each chunk fetch is attempted at most once:
`DownloadChunk` never re-attempts. It makes exactly one request when its part
file can be created and curl can be initialised, and none otherwise (when the
part file cannot be created the disk is left as it was), whatever the result of
that request (a network error, a timeout, HTTP `408`, `429`, `5xx` or any other
status). After the one request the part file holds the bytes of that one
response, and the worker is the `DownloadChunk` of the model on the answer to
that request. -/
theorem chunk_fetched_once (init_ok : Bool) (script : Nat → Transfer) (issued : Nat)
    (c : ChunkData) (fs : FileSystem) :
    issued ≤ (DownloadChunkCounted init_ok script issued c fs).2 ∧
    (DownloadChunkCounted init_ok script issued c fs).2 ≤ issued + 1 ∧
    (fs.creatable (partName c.filename c.chunk_id) = true → init_ok = true →
      (DownloadChunkCounted init_ok script issued c fs).2 = issued + 1 ∧
      (DownloadChunkCounted init_ok script issued c fs).1.files
        (partName c.filename c.chunk_id) = some (script issued).body) ∧
    (∀ net : Network,
      net.get_range c.chunk_id c.url c.range =
        (if init_ok = true then some (script issued) else none) →
      (DownloadChunkCounted init_ok script issued c fs).1 = DownloadChunk net c fs) ∧
    (fs.creatable (partName c.filename c.chunk_id) = false →
      DownloadChunkCounted init_ok script issued c fs = (fs, issued)) ∧
    (init_ok = false → (DownloadChunkCounted init_ok script issued c fs).2 = issued) ∧
    ((DownloadChunkCounted init_ok script issued c fs).2 = issued + 1 ↔
      (fs.creatable (partName c.filename c.chunk_id) = true ∧ init_ok = true)) := by
  rw [DownloadChunkCounted_eq]
  refine ⟨?_, ?_, ?_, ?_, ?_, ?_, ?_⟩
  · split_ifs <;> simp
  · split_ifs <;> simp
  · intro hcr hinit
    rw [if_pos hcr, if_pos hinit]
    exact ⟨rfl, write_files_self _ _ _⟩
  · intro net hnet
    rw [DownloadChunk_eq, hnet]
    split_ifs <;> rfl
  · intro hcr
    simp [hcr]
  · intro hinit
    subst hinit
    cases fs.creatable (partName c.filename c.chunk_id) <;> simp
  · cases hcr : fs.creatable (partName c.filename c.chunk_id) <;> cases init_ok <;> simp

/-- The worker on the scripted origin: one request, and the first answer in
the part file. -/
theorem chunk_fetched_once_witness :
    (DownloadChunkCounted true retryScript 0
      { url := "u", filename := "out", start_byte := 0, end_byte := 1, chunk_id := 0 }
      emptyDisk).2 = 0 + 1 ∧
    (DownloadChunkCounted true retryScript 0
      { url := "u", filename := "out", start_byte := 0, end_byte := 1, chunk_id := 0 }
      emptyDisk).1.files (partName "out" 0) = some (retryScript 0).body :=
  (chunk_fetched_once true retryScript 0
    { url := "u", filename := "out", start_byte := 0, end_byte := 1, chunk_id := 0 }
    emptyDisk).2.2.1 rfl rfl

theorem joinAll_stale (ts us : List Bool) (h : ts ≠ []) (hall : ∀ t ∈ ts, t = false) :
    (joinAll (ts ++ us)).2 = true := by
  cases ts with
  | nil => exact absurd rfl h
  | cons t ts =>
    have ht : t = false := hall t (List.mem_cons_self _ _)
    subst ht
    rfl

/-- Claim C20, the code on a second run. After a multi-chunk run on a fresh
downloader with `N ≥ 1` threads, which returns true, the member `threads`
still holds the `N` handles of that run, all joined. A second `Download` on the
same object that reaches the multi-chunk path appends its own handles behind
them, so the join loop first meets a handle that is not joinable and the call
leaves through `std::system_error`: it does not return, and `MergeChunks` is
not called. -/
theorem second_Download_throws (net1 net2 : Network) (sched1 sched2 : List Nat)
    (d : MultithreadedDownloader) (fs1 fs2 : FileSystem) (hN : 1 ≤ d.num_threads)
    (hth : d.threads = [])
    (h1 : 0 < GetFileSize net1 d.url ∧ SupportsRangeRequests net1 d.url = true)
    (h2 : 0 < GetFileSize net2 d.url ∧ SupportsRangeRequests net2 d.url = true) :
    (d.Download net1 sched1 fs1).outcome = .returned true ∧
    (d.Download net1 sched1 fs1).downloader.threads =
      (plan d.url d.filename (GetFileSize net1 d.url) d.num_threads).map (fun _ => false) ∧
    (d.Download net1 sched1 fs1).downloader.threads.length = d.num_threads.toNat ∧
    ((d.Download net1 sched1 fs1).downloader.Download net2 sched2 fs2).outcome =
      .system_error ∧
    Event.merge ∉ ((d.Download net1 sched1 fs1).downloader.Download net2 sched2 fs2).log := by
  rw [Download_multi net1 sched1 d fs1 h1.1 h1.2 (by omega) hth]
  refine ⟨rfl, rfl, by simp [plan_length], ?_⟩
  have hne : (plan d.url d.filename (GetFileSize net1 d.url) d.num_threads).map
      (fun _ => false) ≠ [] := by
    intro h
    have hl := congrArg List.length h
    simp only [List.length_map, plan_length, List.length_nil] at hl
    omega
  have hj := fun us => joinAll_stale _ us hne (by
    intro t ht
    obtain ⟨_, _, rfl⟩ := List.mem_map.1 ht
    rfl)
  have hsz : ¬ (GetFileSize net2 d.url ≤ 0) := by omega
  have hN0 : d.num_threads ≠ 0 := by omega
  unfold MultithreadedDownloader.Download
  simp only [hsz, if_false, h2.2, Bool.not_true, Bool.false_eq_true, hN0, hj, if_true]
  simp

/-- Two runs of length `4` with two threads on the same object: the first
returns true, the second throws. -/
theorem second_Download_throws_witness :
    ((MultithreadedDownloader.new "u" "out" 2).Download
        (server 4 206 (fun i => some (answer 206 (if i = 0 then [1, 2] else [3, 4]))) none)
        [0, 1] emptyDisk).outcome = .returned true ∧
    (((MultithreadedDownloader.new "u" "out" 2).Download
        (server 4 206 (fun i => some (answer 206 (if i = 0 then [1, 2] else [3, 4]))) none)
        [0, 1] emptyDisk).downloader.Download
        (server 4 206 (fun i => some (answer 206 (if i = 0 then [1, 2] else [3, 4]))) none)
        [0, 1] emptyDisk).outcome = .system_error :=
  have h := second_Download_throws
    (server 4 206 (fun i => some (answer 206 (if i = 0 then [1, 2] else [3, 4]))) none)
    (server 4 206 (fun i => some (answer 206 (if i = 0 then [1, 2] else [3, 4]))) none)
    [0, 1] [0, 1] (MultithreadedDownloader.new "u" "out" 2) emptyDisk emptyDisk
    (by decide) rfl (by decide) (by decide)
  ⟨h.1, h.2.2.2.1⟩

/-! ## Small files, progress callbacks, overflow and division: claims -/

theorem range_of_empty_chunk (url filename : String) (id : Int) :
    ({ url := url, filename := filename, start_byte := 0, end_byte := -1,
       chunk_id := id } : ChunkData).range = "0--1" := by
  show toString (0 : Int) ++ "-" ++ toString (-1 : Int) = "0--1"
  decide

/-- Claim C21. For a content length `L` and a thread count `N` with `0 < L < N`,
`chunk_size` is `0` and the remainder is `L`; `Download` still starts `N`
chunks: every chunk `i < N-1` gets `start_byte = 0` and `end_byte = -1`, so its
range string is `"0--1"`, and the last chunk gets `start_byte = 0` and
`end_byte = L - 1`, the whole resource. -/
theorem small_file_chunks (url filename : String) (L N : Int) (hL : 0 < L) (hLN : L < N)
    (hN31 : N < 2 ^ 31) :
    chunk_size L N = 0 ∧ remainder L N = L ∧
    (plan url filename L N).length = N.toNat ∧
    (∀ i : Nat, i + 1 < N.toNat → ∃ c, (plan url filename L N)[i]? = some c ∧
      c.chunk_id = (i : Int) ∧ c.start_byte = 0 ∧ c.end_byte = -1 ∧ c.range = "0--1") ∧
    (∃ c, (plan url filename L N)[N.toNat - 1]? = some c ∧ c.chunk_id = N - 1 ∧
      c.start_byte = 0 ∧ c.end_byte = L - 1 ∧ c.length = L) ∧
    (∀ (net : Network) (sched : List Nat) (d : MultithreadedDownloader) (fs : FileSystem),
      d.url = url → d.filename = filename → d.num_threads = N → d.threads = [] →
      GetFileSize net url = L → SupportsRangeRequests net url = true →
      (d.Download net sched fs).log = (plan url filename L N).map .spawn ++ [.merge]) := by
  have hL0 : 0 ≤ L := by omega
  have hN : 1 ≤ N := by omega
  have hq : L / N = 0 := Int.ediv_eq_zero_of_lt hL0 hLN
  have hr : L % N = L := Int.emod_eq_of_lt hL0 hLN
  have get := fun (i : Nat) (hi : i < N.toNat) =>
    plan_getElem? url filename hL0 (by omega) hN hN31 hi
  refine ⟨?_, ?_, plan_length _ _ _ _, ?_, ?_, ?_⟩
  · rw [chunk_size_eq hL0 (by omega) hN, hq]
  · rw [remainder_eq hL0 (by omega) hN, hr]
  · intro i hi
    refine ⟨_, get i (by omega), rfl, ?_, ?_, ?_⟩
    · simp [hq]
    · have : ¬ ((i : Int) = N - 1) := by omega
      simp [hq, this]
    · have : ¬ ((i : Int) = N - 1) := by omega
      simp only [hq, this, if_false, mul_zero, zero_sub]
      exact range_of_empty_chunk url filename i
  · have h1 : ((N.toNat - 1 : Nat) : Int) = N - 1 := by omega
    refine ⟨_, get (N.toNat - 1) (by omega), h1, ?_, ?_, ?_⟩
    · simp [hq]
    · simp only [h1, if_true, hq, hr, mul_zero]
      omega
    · simp only [ChunkData.length, h1, if_true, hq, hr, mul_zero]
      omega
  · intro net sched d fs hu hf hn hth hsize hrange
    subst hu hf hn
    rw [Download_multi net sched d fs (by omega) hrange (by omega) hth, hsize]

/-- The plan of `L = 2`, `N = 4`: three chunks with range `"0--1"` and the whole
resource for the last one. -/
theorem small_file_chunks_witness :
    (plan "u" "out" 2 4).map (fun c => (c.start_byte, c.end_byte, c.range)) =
      [(0, -1, "0--1"), (0, -1, "0--1"), (0, -1, "0--1"), (0, 1, "0-1")] ∧
    chunk_size 2 4 = 0 :=
  ⟨by decide, (small_file_chunks "u" "out" 2 4 (by decide) (by decide) (by decide)).1⟩

/-- Claim C22. For every input `(clientp, dltotal, dlnow, ultotal, ulnow)` both
`SingleThreadedDownloader::ProgressCallback` and
`MultithreadedDownloader::ProgressCallback` return `0` (continue), the latter
whether or not `clientp` carries a downloader, and `UpdateProgress` changes no
field of the downloader; so no call, and no sequence of calls, of the progress
callback asks libcurl to abort a transfer. The divisor `elapsed + 1` of the
speed computed by the single-stream callback is not zero for an elapsed time
`≥ 0`. -/
theorem ProgressCallback_continues (d : MultithreadedDownloader) (hasDownloader : Bool)
    (dltotal dlnow ultotal ulnow : Int) :
    SingleThreadedDownloader.ProgressCallback dltotal dlnow ultotal ulnow = 0 ∧
    (d.ProgressCallback hasDownloader dltotal dlnow ultotal ulnow).2 = 0 ∧
    (d.ProgressCallback hasDownloader dltotal dlnow ultotal ulnow).1 = d ∧
    (∀ bytes_downloaded : Int, d.UpdateProgress bytes_downloaded = d) ∧
    (∀ ticks : List (Int × Int × Int × Int), d.progressTicks ticks = d) ∧
    (∀ elapsed : Int, 0 ≤ elapsed → elapsed + 1 < 2 ^ 63 → wrap64 (elapsed + 1) ≠ 0) := by
  refine ⟨?_, ?_, ?_, fun _ => rfl, progressTicks_eq d, ?_⟩
  · unfold SingleThreadedDownloader.ProgressCallback
    split <;> rfl
  · unfold MultithreadedDownloader.ProgressCallback
    split <;> rfl
  · unfold MultithreadedDownloader.ProgressCallback
    split <;> rfl
  · intro e he he63
    rw [wrap64_of_bounds (by omega) he63]
    omega

/-- The callbacks at `dltotal = 0` and at `dltotal = 100`, `dlnow = 50`. -/
theorem ProgressCallback_continues_witness :
    SingleThreadedDownloader.ProgressCallback 0 0 0 0 = 0 ∧
    SingleThreadedDownloader.ProgressCallback 100 50 0 0 = 0 ∧
    ((MultithreadedDownloader.new "u" "out" 2).ProgressCallback true 100 50 0 0).2 = 0 ∧
    ((MultithreadedDownloader.new "u" "out" 2).ProgressCallback true 100 50 0 0).1 =
      MultithreadedDownloader.new "u" "out" 2 :=
  ⟨(ProgressCallback_continues (MultithreadedDownloader.new "u" "out" 2) true 0 0 0 0).1,
    (ProgressCallback_continues (MultithreadedDownloader.new "u" "out" 2) true 100 50 0 0).1,
    (ProgressCallback_continues (MultithreadedDownloader.new "u" "out" 2) true 100 50 0 0).2.1,
    (ProgressCallback_continues (MultithreadedDownloader.new "u" "out" 2) true 100 50 0
      0).2.2.1⟩

/-- Claim C23, counterexample. At `L = 2`, `N = 4` and the last index `i = 3`
the values computed are `4, 0, 0, -1, 1`: the first, `i + 1 = 4`, does not lie
in `[-1, L] = [-1, 2]`. -/
theorem intermediate_exceeds_length :
    rangeIntermediates 2 4 3 = [4, 0, 0, -1, 1] ∧
    ¬ (∀ v ∈ rangeIntermediates 2 4 3, -1 ≤ v ∧ v ≤ 2) := by
  decide

/-- Claim C23, amended. For every content length `L` with `0 < L < 2^63`, every
thread count `N` with `1 ≤ N ≤ 2^31 - 1` and every loop index `0 ≤ i < N`, no
operation of the range computation wraps: the values computed are those of
exact integer arithmetic, `i + 1` lies in `[1, N]` (within `int`, and within
`[-1, L]` when `N ≤ L`), and `i * chunk_size`, `(i + 1) * chunk_size`,
`(i + 1) * chunk_size - 1` and that value plus `remainder` lie in `[-1, L]`;
the chunk handed to the worker is the chunk of exact arithmetic. -/
theorem range_computation_exact (url filename : String) (L N i : Int) (hL : 0 < L)
    (hL63 : L < 2 ^ 63) (hN : 1 ≤ N) (hN31 : N ≤ 2 ^ 31 - 1) (hi0 : 0 ≤ i) (hi : i < N) :
    Int.tdiv L N = L / N ∧ Int.tmod L N = L % N ∧
    chunk_size L N = L / N ∧ remainder L N = L % N ∧
    rangeIntermediates L N i =
      [i + 1, i * (L / N), (i + 1) * (L / N), (i + 1) * (L / N) - 1,
        (i + 1) * (L / N) - 1 + L % N] ∧
    (1 ≤ i + 1 ∧ i + 1 ≤ N ∧ i + 1 ≤ 2 ^ 31 - 1) ∧
    (∀ v ∈ (rangeIntermediates L N i).tail, -1 ≤ v ∧ v ≤ L) ∧
    (N ≤ L → ∀ v ∈ rangeIntermediates L N i, -1 ≤ v ∧ v ≤ L) ∧
    mkChunk url filename N (chunk_size L N) (remainder L N) i =
      { url := url, filename := filename, start_byte := i * (L / N),
        end_byte := if i = N - 1 then (i + 1) * (L / N) - 1 + L % N else (i + 1) * (L / N) - 1,
        chunk_id := i } := by
  have hL0 : 0 ≤ L := by omega
  have hr : 0 ≤ L % N := Int.emod_nonneg L (by omega)
  obtain ⟨a1, a2⟩ := mul_quot_bounds (k := i) hL0 hN hi0 (by omega)
  obtain ⟨b1, b2⟩ := mul_quot_bounds (k := i + 1) hL0 hN (by omega) (by omega)
  have w2 : wrap32 (i + 1) = i + 1 := wrap32_of_isInt32 ⟨by omega, by omega⟩
  have w3 : wrap64 (i * (L / N)) = i * (L / N) := wrap64_of_bounds (by omega) (by omega)
  have w4 : wrap64 ((i + 1) * (L / N)) = (i + 1) * (L / N) :=
    wrap64_of_bounds (by omega) (by omega)
  have w5 : wrap64 ((i + 1) * (L / N) - 1) = (i + 1) * (L / N) - 1 :=
    wrap64_of_bounds (by omega) (by omega)
  have w6 : wrap64 ((i + 1) * (L / N) - 1 + L % N) = (i + 1) * (L / N) - 1 + L % N :=
    wrap64_of_bounds (by omega) (by omega)
  have hlist : rangeIntermediates L N i =
      [i + 1, i * (L / N), (i + 1) * (L / N), (i + 1) * (L / N) - 1,
        (i + 1) * (L / N) - 1 + L % N] := by
    simp only [rangeIntermediates, endBase, chunk_size_eq hL0 hL63 hN,
      remainder_eq hL0 hL63 hN, w2, w3, w4, w5, w6]
  refine ⟨Int.tdiv_eq_ediv hL0 (by omega), Int.tmod_eq_emod hL0 (by omega),
    chunk_size_eq hL0 hL63 hN, remainder_eq hL0 hL63 hN, hlist, ⟨by omega, by omega, by omega⟩,
    ?_, ?_, mkChunk_exact url filename hL0 hL63 hN (by omega) hi0 hi⟩
  · rw [hlist]
    intro v hv
    simp only [List.tail_cons, List.mem_cons, List.mem_singleton, List.not_mem_nil,
      or_false] at hv
    rcases hv with rfl | rfl | rfl | rfl <;> constructor <;> omega
  · intro hNL
    rw [hlist]
    intro v hv
    simp only [List.mem_cons, List.mem_singleton, List.not_mem_nil, or_false] at hv
    rcases hv with rfl | rfl | rfl | rfl | rfl <;> constructor <;> omega

/-- The range computation for the last chunk of `L = 10`, `N = 3`, and for the
last chunk of `L = 2`, `N = 4`. -/
theorem range_computation_exact_witness :
    rangeIntermediates 10 3 2 = [2 + 1, 2 * (10 / 3), (2 + 1) * (10 / 3),
      (2 + 1) * (10 / 3) - 1, (2 + 1) * (10 / 3) - 1 + 10 % 3] ∧
    rangeIntermediates 2 4 3 = [3 + 1, 3 * (2 / 4), (3 + 1) * (2 / 4),
      (3 + 1) * (2 / 4) - 1, (3 + 1) * (2 / 4) - 1 + 2 % 4] :=
  ⟨(range_computation_exact "u" "out" 10 3 2 (by decide) (by decide) (by decide) (by decide)
      (by decide) (by decide)).2.2.2.2.1,
    (range_computation_exact "u" "out" 2 4 3 (by decide) (by decide) (by decide) (by decide)
      (by decide) (by decide)).2.2.2.2.1⟩

/-- Claim C24. The thread count the console front-end passes to
`MultithreadedDownloader` is always `≥ 1`: every entered value `≤ 0` is
replaced by `4` and every other value is kept. For every thread count `N ≥ 1`
the divisor `num_threads` of `file_size / num_threads` and
`file_size % num_threads` in `Download` and of the division in `DisplayStats`
is not zero: `Download` never ends in a division by zero and `DisplayStats`
prints a quotient, before and after `Download`. -/
theorem threads_never_zero (entered : Int) :
    1 ≤ consoleThreads entered ∧
    (entered ≤ 0 → consoleThreads entered = 4) ∧
    (0 < entered → consoleThreads entered = entered) ∧
    (∀ (net : Network) (sched : List Nat) (d : MultithreadedDownloader) (fs : FileSystem),
      1 ≤ d.num_threads →
      d.num_threads ≠ 0 ∧
      (d.Download net sched fs).outcome ≠ .div_by_zero ∧
      d.DisplayStats = some (wrap64 (Int.tdiv d.file_size d.num_threads)) ∧
      (d.Download net sched fs).downloader.DisplayStats =
        some (wrap64 (Int.tdiv (GetFileSize net d.url) d.num_threads))) ∧
    (∀ (net : Network) (sched : List Nat) (url filename : String) (fs : FileSystem),
      ((MultithreadedDownloader.new url filename (consoleThreads entered)).Download net sched
        fs).outcome ≠ .div_by_zero) := by
  have hpos := consoleThreads_pos entered
  have hdiv : ∀ (net : Network) (sched : List Nat) (d : MultithreadedDownloader)
      (fs : FileSystem), 1 ≤ d.num_threads →
      (d.Download net sched fs).outcome ≠ .div_by_zero := by
    intro net sched d fs hN
    have hN0 : d.num_threads ≠ 0 := by omega
    unfold MultithreadedDownloader.Download
    simp only [hN0, if_false]
    split_ifs <;> simp
  refine ⟨hpos, ?_, ?_, ?_, ?_⟩
  · intro h
    simp [consoleThreads, h]
  · intro h
    have : ¬ (entered ≤ 0) := by omega
    simp [consoleThreads, this]
  · intro net sched d fs hN
    have hN0 : d.num_threads ≠ 0 := by omega
    obtain ⟨_, m2, _, _, m5⟩ := Download_members net sched d fs
    refine ⟨hN0, hdiv net sched d fs hN, ?_, ?_⟩
    · simp [MultithreadedDownloader.DisplayStats, hN0]
    · unfold MultithreadedDownloader.DisplayStats
      rw [m5, m2, if_neg hN0]
  · intro net sched url filename fs
    exact hdiv net sched _ fs hpos

/-- The entered values `-3`, `0` and `8`. -/
theorem threads_never_zero_witness :
    consoleThreads (-3) = 4 ∧ consoleThreads 0 = 4 ∧ consoleThreads 8 = 8 :=
  ⟨(threads_never_zero (-3)).2.1 (by decide), (threads_never_zero 0).2.1 (by decide),
    (threads_never_zero 8).2.2.1 (by decide)⟩

end MultiDownloader
